import Mathlib

/-!
Verification of the ai-code-modernizer pipeline orchestrator and sandbox
validation engine.

The development shallowly embeds the relevant parts of the source:

* `backend/tools/docker_tools.py` — the `DockerValidator` class: change-set
  application to dependency manifests (`_update_package_json`,
  `_update_requirements_txt`), the phase pipeline of `validate_project`,
  container provisioning (`_create_container`) and teardown
  (`_cleanup_container`).
* `backend/graph/state.py` — the workflow state and `create_initial_state`.
* `backend/graph/workflow.py` — the four agent node functions and the four
  routing functions, together with a small-step reachability relation for the
  compiled graph.
* `backend/agents/base.py` — `BaseAgent.send_update`.
* `backend/api/main.py` — the `get_migration_status` handler over the
  in-memory `migrations_db` store.

Python strings are modelled as Lean `String`s (with helper functions over the
underlying `List Char` reproducing `str.strip`, `str.split`, `str.startswith`),
Python dicts holding JSON data as association lists, Python `int` counters that
are only ever initialised to a non-negative value and incremented as `Nat`
(the HTTP layer additionally enforces `max_retries >= 0` via
`Field(ge=0, le=10)`), and exceptions as `Except String`.  Calls into the
Docker daemon and into the LLM-backed agents are inputs of the embedded
functions: every observable behaviour of those collaborators is a parameter,
so the theorems quantify over all of them.
-/

/-! ## Python string primitives -/

/-- The whitespace characters removed by Python's default `str.strip()`
(restricted to the one-byte range, which is all the manifests contain). -/
def pyIsSpace (c : Char) : Bool :=
  c = ' ' || c = '\t' || c = '\n' || c = '\r' || c = '\x0b' || c = '\x0c'

/-- Drop the longest suffix whose characters satisfy `p`. -/
def dropRightWhileL (p : Char → Bool) (l : List Char) : List Char :=
  ((l.reverse).dropWhile p).reverse

/-- `str.strip()` on the character list. -/
def stripL (l : List Char) : List Char :=
  dropRightWhileL pyIsSpace (l.dropWhile pyIsSpace)

/-- `str.strip()` on strings. -/
def pyStrip (s : String) : String :=
  String.mk (stripL s.data)

/-- Helper for `splitCharL`: returns the first field and the remaining
fields produced by splitting at the character `c`. -/
def splitCharAux (c : Char) : List Char → List Char × List (List Char)
  | [] => ([], [])
  | x :: xs =>
    let r := splitCharAux c xs
    if x = c then ([], r.1 :: r.2) else (x :: r.1, r.2)

/-- Python `str.split(c)` for a one-character separator: always returns at
least one field, and `"".split(c) = [""]`. -/
def splitCharL (c : Char) (l : List Char) : List (List Char) :=
  (splitCharAux c l).1 :: (splitCharAux c l).2

/-- Python `sep.join(fields)` for a one-character separator. -/
def joinCharL (c : Char) : List (List Char) → List Char
  | [] => []
  | [l] => l
  | l :: ls => l ++ c :: joinCharL c ls

/-- The part of `l` before the first occurrence of the substring `sep`
(`l` itself when `sep` does not occur): Python `l.split(sep)[0]`. -/
def takeBeforeSub (sep : List Char) : List Char → List Char
  | [] => []
  | c :: cs => if sep.isPrefixOf (c :: cs) then [] else c :: takeBeforeSub sep cs

/-! ## Migration plans (the `ChangeSet`) -/

/-- One entry of `migration_plan["dependencies"]`.  The source reads the
fields with `dep_info.get("action", "keep")` and
`dep_info.get("target_version", "")`; an absent key is represented by the
corresponding default value. -/
structure DepInfo where
  action : String
  target_version : String
  deriving DecidableEq, Repr

/-- The migration plan as consumed by the sandbox engine and orchestrator.
`dependencies` models the `"dependencies"` mapping (a Python dict, hence an
ordered association list whose keys are distinct in any value actually
produced by `json.loads`).  The further plan keys (`overall_risk`,
`migration_strategy`, ...) are never read by the functions verified here;
the planner always stores at least `project_path` into the plan, so a plan
dict is never empty and is always truthy. -/
structure MPlan where
  dependencies : List (String × DepInfo)
  deriving DecidableEq, Repr

/-- `migration_plan.get("dependencies", {}).get(pkg_name)` — first-match
association-list lookup, the embedding of a Python dict lookup. -/
def lookupDep (deps : List (String × DepInfo)) (k : String) : Option DepInfo :=
  match deps with
  | [] => none
  | (k', v) :: r => if k' = k then some v else lookupDep r k

/-! ## `DockerValidator._update_package_json` (content level)

The source reads `/app/package.json` with `cat`, edits the parsed JSON
object, and writes it back.  The embedding works on the parsed object: the
two dependency groups are association lists (JSON objects preserve member
order), and all other members of `package.json` are collected untouched in
`rest`. -/

/-- `if dep_name in group: group[dep_name] = target_version` — rewrite the
value of a present key in place, keeping its position. -/
def setIfPresent (k v : String) (l : List (String × String)) : List (String × String) :=
  if l.any (fun p => p.1 = k) then
    l.map (fun p => if p.1 = k then (k, v) else p)
  else l

/-- `group.pop(dep_name, None)` — remove the binding of `k` if present. -/
def popKey (k : String) (l : List (String × String)) : List (String × String) :=
  l.filter (fun p => !(p.1 = k))

/-- The parsed `package.json`: the two dependency groups plus every other
member (`scripts`, `name`, ...) untouched by the migration. -/
structure PackageData where
  dependencies : List (String × String)
  devDependencies : List (String × String)
  rest : List (String × String)
  deriving DecidableEq, Repr

/-- The loop body of `_update_package_json` for one
`(dep_name, dep_info)` item of the plan's dependency mapping. -/
def applyDepJson (p : PackageData) (e : String × DepInfo) : PackageData :=
  if e.2.action = "upgrade" && !(e.2.target_version = "") then
    { p with
      dependencies := setIfPresent e.1 e.2.target_version p.dependencies
      devDependencies := setIfPresent e.1 e.2.target_version p.devDependencies }
  else if e.2.action = "remove" then
    { p with
      dependencies := popKey e.1 p.dependencies
      devDependencies := popKey e.1 p.devDependencies }
  else p

/-- `DockerValidator._update_package_json`, at the level of the parsed
manifest: iterate over `migration_plan.get("dependencies", {}).items()` in
order. -/
def update_package_json (plan : MPlan) (p : PackageData) : PackageData :=
  plan.dependencies.foldl applyDepJson p

/-- First-match lookup in a string association list. -/
def alookup (k : String) : List (String × String) → Option String
  | [] => none
  | (k', v) :: r => if k' = k then some v else alookup k r

/-! ## `DockerValidator._update_requirements_txt` (content level) -/

/-- `line.split("==")[0].split(">=")[0].split("<=")[0].strip()` applied to an
already-stripped line. -/
def parsePkgL (l : List Char) : List Char :=
  stripL (takeBeforeSub ['<', '='] (takeBeforeSub ['>', '='] (takeBeforeSub ['=', '='] l)))

/-- The loop body of `_update_requirements_txt` for one raw line: the line is
stripped; blank lines and comments are kept; otherwise the package name is
parsed and looked up in the plan.  `some l'` means `l'` is appended to
`updated_lines`; `none` means the line is dropped (a `remove` action, and
also any entry whose action is neither a well-formed `upgrade` nor `keep`,
which the source silently skips). -/
def reqLineStripped (deps : List (String × DepInfo)) (l : List Char) :
    Option (List Char) :=
  match l with
  | [] => some []
  | c :: _ =>
    if c = '#' then some l
    else
      match lookupDep deps (String.mk (parsePkgL l)) with
      | none => some l
      | some info =>
        if info.action = "upgrade" && !(info.target_version = "") then
          some (parsePkgL l ++ '=' :: '=' :: info.target_version.data)
        else if info.action = "keep" then some l
        else none

/-- See `reqLineStripped`: the loop body first strips the raw line
(`line = line.strip()`), then processes it. -/
def reqLine (deps : List (String × DepInfo)) (raw : List Char) : Option (List Char) :=
  reqLineStripped deps (stripL raw)

/-- `DockerValidator._update_requirements_txt` at the content level:
`output.decode().split("\n")`, the per-line update loop, and
`"\n".join(updated_lines)`. -/
def update_requirements_txt (plan : MPlan) (content : String) : String :=
  String.mk (joinCharL '\n' ((splitCharL '\n' content.data).filterMap (reqLine plan.dependencies)))

/-! ## The sandbox world and `DockerValidator`

The Docker daemon is modelled explicitly: `SandboxWorld.docker` maps a
container name to its lifecycle state (a removed container is simply absent),
and `SandboxWorld.tracked` is the validator's `self.containers` list.
Everything the container does when commands are executed in it (exit codes,
captured output, raised `APIError`s) is supplied by a `DockerEnv`, so the
theorems quantify over every behaviour of the external daemon. -/

/-- Lifecycle state of a container known to the daemon. -/
inductive CStatus
  | created
  | running
  | stopped
  deriving DecidableEq, Repr

/-- The daemon's container table plus the validator's `self.containers`. -/
structure SandboxWorld where
  docker : List (String × CStatus)
  tracked : List String
  deriving DecidableEq, Repr

/-- Result of `_run_tests` (the method wraps its whole body in
`try/except`, so it always returns this record). -/
structure TestRes where
  success : Bool
  tests_found : Bool
  exit_code : Option Int
  output : String
  test_summary : String
  deriving DecidableEq, Repr

/-- Result dict of `_run_health_check`. -/
structure HealthRes where
  success : Bool
  process_running : Bool
  process_output : Option String
  logs : Option String
  deriving DecidableEq, Repr

/-- The `logs` sub-dictionary of a validation result; an `Option` field is a
key that may not have been added yet. -/
structure DockerLogs where
  install : Option String
  startup : Option String
  health_check : Option HealthRes
  tests : Option TestRes
  deriving DecidableEq, Repr

/-- The dictionary returned by `DockerValidator.validate_project`; the record
fields are exactly the keys the source initialises up front. -/
structure DockerResult where
  status : String
  container_id : Option String
  container_name : Option String
  port : Option Nat
  build_success : Bool
  install_success : Bool
  runtime_success : Bool
  health_check_success : Bool
  tests_run : Bool
  tests_passed : Bool
  logs : DockerLogs
  errors : List String
  deriving DecidableEq, Repr

/-- The initial `result` dict of `validate_project`. -/
def initResult : DockerResult :=
  { status := "error"
    container_id := none
    container_name := none
    port := none
    build_success := false
    install_success := false
    runtime_success := false
    health_check_success := false
    tests_run := false
    tests_passed := false
    logs := { install := none, startup := none, health_check := none, tests := none }
    errors := [] }

/-- One validation attempt's external behaviour: everything the Docker daemon
and the container's processes decide.  A `some msg` in a `*Raises` field means
the corresponding SDK call raises an exception whose `str` is `msg`. -/
structure DockerEnv where
  projectType : String
  containerName : String
  containerId : String
  createRaises : Option String
  startRaises : Option String
  copyRaises : Option String
  migrationPlan : Option MPlan
  applyRaises : Option String
  installExit : Int
  installOutput : String
  startAppRaises : Option String
  startAppOutput : String
  healthRaises : Option String
  health : HealthRes
  tests : TestRes
  cleanupContainers : Bool
  deriving DecidableEq, Repr

/-- Remove every container with this name from the daemon table (the stale
container removal at provision time; the `except Exception: pass` around
`containers.get` makes it a no-op when the name is unknown). -/
def eraseContainer (d : List (String × CStatus)) (n : String) : List (String × CStatus) :=
  d.filter (fun p => !(p.1 = n))

/-- Daemon state of a named container. -/
def containerStatus (d : List (String × CStatus)) (n : String) : Option CStatus :=
  match d with
  | [] => none
  | (n', s) :: r => if n' = n then some s else containerStatus r n

/-- Set the state of a present container. -/
def setContainerStatus (d : List (String × CStatus)) (n : String) (s : CStatus) :
    List (String × CStatus) :=
  d.map (fun p => if p.1 = n then (n, s) else p)

/-- `container.stop(timeout=5)`: fails when the daemon no longer knows the
container, otherwise leaves it in the `stopped` state. -/
def containerStop (d : List (String × CStatus)) (n : String) :
    Except String (List (String × CStatus)) :=
  match containerStatus d n with
  | none => .error ("No such container: " ++ n)
  | some _ => .ok (setContainerStatus d n .stopped)

/-- `container.remove()`: fails when the container is absent or still
running, otherwise deletes it from the daemon table. -/
def containerRemove (d : List (String × CStatus)) (n : String) :
    Except String (List (String × CStatus)) :=
  match containerStatus d n with
  | none => .error ("No such container: " ++ n)
  | some .running => .error ("Cannot remove running container: " ++ n)
  | some _ => .ok (eraseContainer d n)

/-- `DockerValidator._cleanup_container`: `stop`, `remove`, drop the
container from `self.containers`, with the whole body inside
`try/except Exception` — a failing step leaves the remaining state as it was
and never raises. -/
def cleanup_container (w : SandboxWorld) (n : String) : SandboxWorld :=
  match containerStop w.docker n with
  | .error _ => w
  | .ok d1 =>
    match containerRemove d1 n with
    | .error _ => { w with docker := d1 }
    | .ok d2 => { docker := d2, tracked := w.tracked.erase n }

/-- `DockerValidator._create_container`: select image/port by ecosystem
(raising `ValueError` for an unknown one), remove any stale container with
the colliding name, create the container, start it, and only then append it
to `self.containers`.  The world in the `.error` outcome records the side
effects already performed: a creation that succeeded but whose `start()`
raised leaves the `created` container in the daemon table. -/
def create_container (env : DockerEnv) (w : SandboxWorld) :
    SandboxWorld × Except String (String × Nat) :=
  let app_port : Except String Nat :=
    if env.projectType = "nodejs" then .ok 3000
    else if env.projectType = "python" then .ok 5000
    else .error ("Unsupported project type: " ++ env.projectType)
  match app_port with
  | .error e => (w, .error e)
  | .ok port =>
    let d1 := eraseContainer w.docker env.containerName
    match env.createRaises with
    | some e => ({ w with docker := d1 }, .error e)
    | none =>
      let d2 := (env.containerName, CStatus.created) :: d1
      match env.startRaises with
      | some e => ({ w with docker := d2 }, .error e)
      | none =>
        ({ docker := setContainerStatus d2 env.containerName .running
           tracked := w.tracked ++ [env.containerName] },
         .ok (env.containerName, port))

/-- `_install_dependencies`: run the install command and raise `RuntimeError`
with the captured output on a non-zero exit. -/
def install_dependencies (env : DockerEnv) : Except String String :=
  if env.installExit ≠ 0 then
    .error ("Dependency installation failed: " ++ env.installOutput)
  else .ok env.installOutput

/-- The `finally` block of `validate_project`: clean the container up when
one was returned by `_create_container` and cleanup is configured, keep it
for debugging otherwise. -/
def finalizeVP (cleanup : Bool) (container : Option String) (r : DockerResult)
    (w : SandboxWorld) : DockerResult × SandboxWorld :=
  match container with
  | none => (r, w)
  | some n => if cleanup then (r, cleanup_container w n) else (r, w)

/-- `DockerValidator.validate_project`: the phase pipeline inside
`try/except/finally`.  Each phase either extends `result` or raises, in which
case `str(e)` is appended to `result["errors"]` and control reaches the
`finally` block.  `_run_tests` never raises (its body is inside its own
`try/except`), so its outcome is the env-supplied record.  The app restart
performed after a successful test run when cleanup is disabled only execs
inside the container and is swallowed on failure, so it does not change the
modelled state. -/
def validate_project (env : DockerEnv) (w : SandboxWorld) : DockerResult × SandboxWorld :=
  let r0 := initResult
  match create_container env w with
  | (w1, .error e) => finalizeVP env.cleanupContainers none { r0 with errors := r0.errors ++ [e] } w1
  | (w1, .ok (name, port)) =>
    let c := some name
    let r1 := { r0 with
      container_id := some (env.containerId.take 12)
      container_name := some name
      port := some port
      build_success := true }
    match env.copyRaises with
    | some e => finalizeVP env.cleanupContainers c { r1 with errors := r1.errors ++ [e] } w1
    | none =>
      match (match env.migrationPlan with
             | some _ => env.applyRaises
             | none => none) with
      | some e => finalizeVP env.cleanupContainers c { r1 with errors := r1.errors ++ [e] } w1
      | none =>
        match install_dependencies env with
        | .error e => finalizeVP env.cleanupContainers c { r1 with errors := r1.errors ++ [e] } w1
        | .ok installOut =>
          let r2 := { r1 with
            logs := { r1.logs with install := some installOut }
            install_success := true }
          match env.startAppRaises with
          | some e =>
            finalizeVP env.cleanupContainers c { r2 with errors := r2.errors ++ [e] } w1
          | none =>
            let r3 := { r2 with
              logs := { r2.logs with startup := some env.startAppOutput }
              runtime_success := true }
            match env.healthRaises with
            | some e =>
              finalizeVP env.cleanupContainers c { r3 with errors := r3.errors ++ [e] } w1
            | none =>
              let r4 := { r3 with
                logs := { r3.logs with health_check := some env.health }
                health_check_success := env.health.success }
              let r5 := { r4 with
                logs := { r4.logs with tests := some env.tests }
                tests_run := env.tests.tests_found
                tests_passed := env.tests.success }
              let r6 :=
                if r5.health_check_success then
                  if r5.tests_run then
                    if r5.tests_passed then { r5 with status := "success" }
                    else { r5 with
                      status := "error"
                      errors := r5.errors ++ ["Tests failed: " ++ env.tests.test_summary] }
                  else { r5 with status := "success" }
                else { r5 with errors := r5.errors ++ ["Health check failed"] }
              finalizeVP env.cleanupContainers c r6 w1

/-- The first exception raised inside the `try` block of `validate_project`
after container provisioning chose an image (helper for `firstExn`). -/
def firstExnAfterType (env : DockerEnv) : Option String :=
  match env.createRaises with
  | some e => some e
  | none =>
    match env.startRaises with
    | some e => some e
    | none =>
      match env.copyRaises with
      | some e => some e
      | none =>
        match (match env.migrationPlan with
               | some _ => env.applyRaises
               | none => none) with
        | some e => some e
        | none =>
          if env.installExit ≠ 0 then
            some ("Dependency installation failed: " ++ env.installOutput)
          else
            match env.startAppRaises with
            | some e => some e
            | none => env.healthRaises

/-- The first exception raised inside the `try` block of `validate_project`
for a given environment (`none` when no phase raises). -/
def firstExn (env : DockerEnv) : Option String :=
  if env.projectType = "nodejs" then firstExnAfterType env
  else if env.projectType = "python" then firstExnAfterType env
  else some ("Unsupported project type: " ++ env.projectType)

/-- Two environments that agree on everything up to and including the
install phase (the later phases — application start, health check, tests —
may differ arbitrarily). -/
def EnvAgreesThroughInstall (e e' : DockerEnv) : Prop :=
  e.projectType = e'.projectType ∧ e.containerName = e'.containerName ∧
  e.containerId = e'.containerId ∧ e.createRaises = e'.createRaises ∧
  e.startRaises = e'.startRaises ∧ e.copyRaises = e'.copyRaises ∧
  e.migrationPlan = e'.migrationPlan ∧ e.applyRaises = e'.applyRaises ∧
  e.installExit = e'.installExit ∧ e.installOutput = e'.installOutput ∧
  e.cleanupContainers = e'.cleanupContainers

/-! ## Progress broadcasting (`backend/agents/base.py`, workflow nodes)

A broadcaster is the caller-supplied WebSocket sink: a function that
receives one serialised message and may raise.  The serialised payloads are
modelled by the `BMsg` constructors carrying the fields the source puts into
the JSON dict; the wall-clock `timestamp` field is not modelled. -/

/-- A progress message handed to the broadcaster. -/
inductive BMsg
  | workflowStatus (status message : String)
  | agentCompletion (agent status : String) (details : List (String × String))
  | agentUpdate (mtype agent message : String) (extra : List (String × String))
  deriving DecidableEq, Repr

/-- The caller-supplied progress sink; `.error e` models the broadcaster
raising an exception whose `str` is `e`. -/
def Broadcaster : Type := BMsg → Except String Unit

/-- `if state.get("broadcaster"): state["broadcaster"](...)` — emit a message
through an optional broadcaster with no protection: a raising broadcaster
propagates. -/
def emitRaw (b : Option Broadcaster) (m : BMsg) : Except String Unit :=
  match b with
  | none => .ok ()
  | some f => f m

/-- `BaseAgent.send_update`: build the update payload and broadcast it, with
the whole body inside `try/except Exception` — a failure is logged
(`.ok` with the warning text) and swallowed. -/
def send_update (agent : String) (b : Option Broadcaster) (message : String)
    (message_type : String) (extra_data : List (String × String)) :
    Except String (List String) :=
  match b with
  | none => .ok []
  | some f =>
    match f (.agentUpdate message_type agent message extra_data) with
    | .ok _ => .ok []
    | .error e => .ok ["Failed to broadcast message: " ++ e]

/-! ## Workflow state (`backend/graph/state.py`) -/

/-- The analysis dictionary produced by the runtime validator's LLM step
(`recommendation` is read with `.get`, so an absent key is `none`; the other
keys are never read by the orchestrator). -/
structure VAnalysis where
  recommendation : Option String
  deriving DecidableEq, Repr

/-- The dictionary returned by `RuntimeValidatorAgent.execute`: either the
success shape (`status`, nested Docker `validation_result`, `analysis`) or
the error shape (`status="error"`, `error`); fields read with `.get` are
`Option`s. -/
structure VAgentResult where
  status : String
  validation_result : Option DockerResult
  analysis : Option VAnalysis
  error : Option String
  deriving DecidableEq, Repr

/-- The error analyzer's analysis dictionary: `fix_suggestions` is read with
`.get("fix_suggestions", [])`, so an absent key is the empty list; the
remaining keys are not read by the routing logic. -/
structure ErrAnalysis where
  fix_suggestions : List String
  deriving DecidableEq, Repr

/-- The `MigrationState` TypedDict restricted to the fields the four nodes
and four routers read or write (`messages`, the cost ledger and the
broadcaster reference are omitted: costs are float arithmetic never read by
routing, and the broadcaster is passed to the node functions explicitly). -/
structure WState where
  project_path : String
  project_type : String
  git_branch : String
  migration_plan : Option MPlan
  validation_result : Option VAgentResult
  validation_success : Bool
  error_analysis : Option ErrAnalysis
  fix_suggestions : Option (List String)
  deployment_result : Option (List (String × String))
  pr_url : Option String
  branch_name : Option String
  status : String
  retry_count : Nat
  max_retries : Nat
  errors : List String
  github_token : Option String
  deriving Repr

/-- `create_initial_state` from `backend/graph/state.py`. -/
def create_initial_state (project_path : String) (project_type : String)
    (max_retries : Nat) (git_branch : String) : WState :=
  { project_path := project_path
    project_type := project_type
    git_branch := git_branch
    migration_plan := none
    validation_result := none
    validation_success := false
    error_analysis := none
    fix_suggestions := none
    deployment_result := none
    pr_url := none
    branch_name := none
    status := "initializing"
    retry_count := 0
    max_retries := max_retries
    errors := []
    github_token := none }

/-! ## Agent node functions (`backend/graph/workflow.py`)

Each node first emits a `workflow_status` message (outside any `try`), then
runs the agent inside `try/except Exception`.  The agent call is modelled by
an input datatype: either the agent's returned dictionary or an exception.
A broadcaster failure before the `try` propagates out of the node; one
inside the `try` is caught by the node's `except` handler; one inside the
`except` handler propagates. -/

/-- `MigrationPlannerAgent.execute`'s returned dict: the success shape
carries the plan, the error shape carries `result.get("error")`. -/
inductive PlannerAgentResult
  | rSuccess (plan : MPlan)
  | rError (msg : Option String)
  deriving Repr

/-- Outcome of the planner agent call inside `migration_planner_node`'s
`try` block: the returned dict, or an exception (which also stands for a
broadcaster failure at the emission points inside the `try` that precede any
state write — the handler sees the same state either way). -/
inductive PlannerInput
  | raises (msg : String)
  | completes (r : PlannerAgentResult)
  deriving Repr

/-- The `except Exception` handler of `migration_planner_node`: record the
error and emit a completion message; a failure of that emission propagates
out of the node. -/
def plannerExcept (b : Option Broadcaster) (s : WState) (m : String) :
    Except String WState :=
  let s' := { s with status := "error",
                     errors := s.errors ++ ["Migration planner error: " ++ m] }
  match emitRaw b (.agentCompletion "migration_planner" "error" [("error", m)]) with
  | .error e => .error e
  | .ok _ => .ok s'

/-- `migration_planner_node`. -/
def migration_planner_node (b : Option Broadcaster) (s : WState) (i : PlannerInput) :
    Except String WState :=
  match emitRaw b (.workflowStatus "executing_migration_planner"
      "Starting migration planning...") with
  | .error e => .error e
  | .ok _ =>
    match i with
    | .raises m => plannerExcept b s m
    | .completes (.rSuccess plan) =>
      let s1 := { s with migration_plan := some plan, status := "plan_created" }
      match emitRaw b (.agentCompletion "migration_planner" "success"
          [("message", "Migration plan created successfully")]) with
      | .error e => plannerExcept b s1 e
      | .ok _ => .ok s1
    | .completes (.rError m) =>
      let s1 := { s with
        status := "error"
        errors := s.errors ++
          ["Migration planning failed: " ++ m.getD "Unknown error"] }
      match emitRaw b (.agentCompletion "migration_planner" "error"
          [("error", m.getD "Unknown error")]) with
      | .error e => plannerExcept b s1 e
      | .ok _ => .ok s1

/-- Outcome of the validator agent call inside `runtime_validator_node`. -/
inductive ValidatorInput
  | raises (msg : String)
  | completes (r : VAgentResult)
  deriving Repr

/-- The conjunction computed in `runtime_validator_node`:
`result.get("status") == "success" and validation_data.get("status") ==
"success" and analysis_data.get("recommendation") == "proceed"` (with
`validation_data`/`analysis_data` read via `.get(..., {})`). -/
def valSuccessR (r : VAgentResult) : Bool :=
  r.status = "success" &&
  (match r.validation_result with
   | some v => v.status = "success"
   | none => false) &&
  (match r.analysis with
   | some a => a.recommendation = some "proceed"
   | none => false)

/-- The `except Exception` handler of `runtime_validator_node`. -/
def validatorExcept (b : Option Broadcaster) (s : WState) (m : String) :
    Except String WState :=
  let s' := { s with status := "error", validation_success := false,
                     errors := s.errors ++ ["Runtime validator error: " ++ m] }
  match emitRaw b (.agentCompletion "runtime_validator" "error" [("error", m)]) with
  | .error e => .error e
  | .ok _ => .ok s'

/-- `runtime_validator_node`. -/
def runtime_validator_node (b : Option Broadcaster) (s : WState) (i : ValidatorInput) :
    Except String WState :=
  match emitRaw b (.workflowStatus "executing_runtime_validator"
      "Starting runtime validation...") with
  | .error e => .error e
  | .ok _ =>
    match i with
    | .raises m => validatorExcept b s m
    | .completes r =>
      let s1 := { s with validation_result := some r,
                         validation_success := valSuccessR r }
      if s1.validation_success then
        let s2 := { s1 with status := "validated" }
        match emitRaw b (.agentCompletion "runtime_validator" "success"
            [("message", "Runtime validation completed successfully")]) with
        | .error e => validatorExcept b s2 e
        | .ok _ => .ok s2
      else
        let s2 := { s1 with status := "validation_failed" }
        match emitRaw b (.agentCompletion "runtime_validator" "failed"
            [("message", "Runtime validation failed")]) with
        | .error e => validatorExcept b s2 e
        | .ok _ => .ok s2

/-- `ErrorAnalyzerAgent.execute`'s returned dict. -/
inductive AnalyzerAgentResult
  | aSuccess (analysis : ErrAnalysis)
  | aError (msg : Option String)
  deriving Repr

/-- Outcome of the analyzer agent call inside `error_analyzer_node`. -/
inductive AnalyzerInput
  | raises (msg : String)
  | completes (r : AnalyzerAgentResult)
  deriving Repr

/-- The `except Exception` handler of `error_analyzer_node`. -/
def analyzerExcept (b : Option Broadcaster) (s : WState) (m : String) :
    Except String WState :=
  let s' := { s with status := "error",
                     errors := s.errors ++ ["Error analyzer error: " ++ m] }
  match emitRaw b (.agentCompletion "error_analyzer" "error" [("error", m)]) with
  | .error e => .error e
  | .ok _ => .ok s'

/-- `error_analyzer_node`. -/
def error_analyzer_node (b : Option Broadcaster) (s : WState) (i : AnalyzerInput) :
    Except String WState :=
  match emitRaw b (.workflowStatus "executing_error_analyzer"
      "Starting error analysis...") with
  | .error e => .error e
  | .ok _ =>
    match i with
    | .raises m => analyzerExcept b s m
    | .completes (.aSuccess a) =>
      let s1 := { s with error_analysis := some a,
                         fix_suggestions := some a.fix_suggestions,
                         status := "analyzed" }
      match emitRaw b (.agentCompletion "error_analyzer" "success"
          [("message", "Error analysis completed")]) with
      | .error e => analyzerExcept b s1 e
      | .ok _ => .ok s1
    | .completes (.aError m) =>
      let s1 := { s with
        status := "error"
        errors := s.errors ++ ["Error analysis failed: " ++ m.getD "Unknown error"] }
      match emitRaw b (.agentCompletion "error_analyzer" "failed"
          [("error", m.getD "Unknown error")]) with
      | .error e => analyzerExcept b s1 e
      | .ok _ => .ok s1

/-- `StagingDeployerAgent.execute`'s returned dict. -/
inductive DeployerAgentResult
  | dSuccess (pr_url branch_name : Option String)
  | dError (msg : Option String)
  deriving Repr

/-- Outcome of the deployer agent call inside `staging_deployer_node`. -/
inductive DeployerInput
  | raises (msg : String)
  | completes (r : DeployerAgentResult)
  deriving Repr

/-- The `except Exception` handler of `staging_deployer_node` (note: it sets
`deployment_failed`, not `error`). -/
def deployerExcept (b : Option Broadcaster) (s : WState) (m : String) :
    Except String WState :=
  let s' := { s with status := "deployment_failed",
                     errors := s.errors ++ ["Staging deployer error: " ++ m] }
  match emitRaw b (.agentCompletion "staging_deployer" "error" [("error", m)]) with
  | .error e => .error e
  | .ok _ => .ok s'

/-- `staging_deployer_node`. -/
def staging_deployer_node (b : Option Broadcaster) (s : WState) (i : DeployerInput) :
    Except String WState :=
  match emitRaw b (.workflowStatus "executing_staging_deployer"
      "Starting staging deployment...") with
  | .error e => .error e
  | .ok _ =>
    match i with
    | .raises m => deployerExcept b s m
    | .completes (.dSuccess pr br) =>
      let s1 := { s with deployment_result := some [], pr_url := pr,
                         branch_name := br, status := "deployed" }
      match emitRaw b (.agentCompletion "staging_deployer" "success"
          [("message", "Staging deployment completed")]) with
      | .error e => deployerExcept b s1 e
      | .ok _ => .ok s1
    | .completes (.dError m) =>
      let s1 := { s with
        status := "deployment_failed"
        errors := s.errors ++ ["Deployment failed: " ++ m.getD "Unknown error"] }
      match emitRaw b (.agentCompletion "staging_deployer" "failed"
          [("error", m.getD "Unknown error")]) with
      | .error e => deployerExcept b s1 e
      | .ok _ => .ok s1

/-! ## Routing functions (`backend/graph/workflow.py`) -/

/-- Truthiness of `state.get("fix_suggestions")`: `None` and `[]` are falsy,
a non-empty list is truthy. -/
def fixTruthy : Option (List String) → Bool
  | none => false
  | some l => !l.isEmpty

/-- `should_validate`: route after planning.  `state.get("migration_plan")`
is truthy iff a plan is present (the planner always stores a non-empty
dict). -/
def should_validate (s : WState) : String :=
  if s.status = "plan_created" && s.migration_plan.isSome then "validate" else "end"

/-- `should_retry_or_deploy`: route after validation. -/
def should_retry_or_deploy (s : WState) : String :=
  if s.validation_success then "deploy"
  else if s.retry_count < s.max_retries then "analyze"
  else "end"

/-- `should_retry_validation`: route after error analysis; on the retry edge
the router itself increments `retry_count` in the state before returning. -/
def should_retry_validation (s : WState) : String × WState :=
  if s.status = "analyzed" && fixTruthy s.fix_suggestions then
    ("validate", { s with retry_count := s.retry_count + 1 })
  else ("end", s)

/-- `deployment_complete`: deployment always ends the workflow. -/
def deployment_complete (_ : WState) : String := "end"

/-! ## The compiled graph as a small-step machine

`create_workflow` wires the four nodes with the conditional edge mappings
`plan —should_validate→ {validate, END}`,
`validate —should_retry_or_deploy→ {analyze, deploy, END}`,
`analyze —should_retry_validation→ {validate, END}`,
`deploy —deployment_complete→ {END}`.

A step executes the node at the current position and follows the router.
Node execution is abstracted by the frame condition `NodePreserves`: no node
body writes `retry_count` or `max_retries` (proved below for each of the
four modelled node functions, on every path including the exception
handlers), and every other field may change arbitrarily — this covers every
agent outcome and every broadcaster behaviour. -/

/-- Positions in the compiled graph (`finished` is LangGraph's `END`). -/
inductive WNode
  | plan
  | validate
  | analyze
  | deploy
  | finished
  deriving DecidableEq, Repr

/-- Frame condition satisfied by every node body: the retry counter and the
retry budget are never written by a node (only `should_retry_validation`
writes `retry_count`). -/
def NodePreserves (s s' : WState) : Prop :=
  s'.retry_count = s.retry_count ∧ s'.max_retries = s.max_retries

/-- One transition of the compiled graph: run the node at the current
position (any state update preserving the retry fields), then follow its
router. -/
inductive WStep : WNode × WState → WNode × WState → Prop
  | planToValidate {s s' : WState} (hp : NodePreserves s s')
      (hr : should_validate s' = "validate") :
      WStep (.plan, s) (.validate, s')
  | planToEnd {s s' : WState} (hp : NodePreserves s s')
      (hr : should_validate s' = "end") :
      WStep (.plan, s) (.finished, s')
  | validateToDeploy {s s' : WState} (hp : NodePreserves s s')
      (hr : should_retry_or_deploy s' = "deploy") :
      WStep (.validate, s) (.deploy, s')
  | validateToAnalyze {s s' : WState} (hp : NodePreserves s s')
      (hr : should_retry_or_deploy s' = "analyze") :
      WStep (.validate, s) (.analyze, s')
  | validateToEnd {s s' : WState} (hp : NodePreserves s s')
      (hr : should_retry_or_deploy s' = "end") :
      WStep (.validate, s) (.finished, s')
  | analyzeToValidate {s s' : WState} (hp : NodePreserves s s')
      (hr : (should_retry_validation s').1 = "validate") :
      WStep (.analyze, s) (.validate, (should_retry_validation s').2)
  | analyzeToEnd {s s' : WState} (hp : NodePreserves s s')
      (hr : (should_retry_validation s').1 = "end") :
      WStep (.analyze, s) (.finished, (should_retry_validation s').2)
  | deployToEnd {s s' : WState} (hp : NodePreserves s s') :
      WStep (.deploy, s) (.finished, s')

/-- Reachability from `create_initial_state`, counting how many times the
Validate node has been entered (= how many times `runtime_validator_node`
executes). -/
inductive WReach : WNode × WState → Nat → Prop
  | init (pp pt : String) (mr : Nat) (gb : String) :
      WReach (.plan, create_initial_state pp pt mr gb) 0
  | step {c c' : WNode × WState} {k : Nat} :
      WReach c k → WStep c c' →
      WReach c' (k + (if c'.1 = .validate then 1 else 0))

/-! ## `GET /api/migrations/{migration_id}` (`backend/api/main.py`) -/

/-- Python `s.replace(sub, rep)` (replace all occurrences), by fuel on the
string length. -/
def replaceSubAux (sub rep : List Char) : Nat → List Char → List Char
  | _, [] => []
  | 0, l => l
  | fuel + 1, x :: xs =>
    if sub.isPrefixOf (x :: xs) then rep ++ replaceSubAux sub rep fuel ((x :: xs).drop sub.length)
    else x :: replaceSubAux sub rep fuel xs

/-- Python `s.replace(sub, rep)` for non-empty `sub`. -/
def pyReplace (s sub rep : String) : String :=
  String.mk (replaceSubAux sub.data rep.data s.data.length s.data)

/-- The three report-download links for a migration. -/
structure Reports where
  html : String
  markdown : String
  json : String
  deriving DecidableEq, Repr

/-- The on-disk report file paths cached in a migration record. -/
structure ReportFiles where
  html : String
  markdown : String
  json : String
  deriving DecidableEq, Repr

/-- One record of the in-memory `migrations_db` (the fields read or written
by `get_migration_status`; datetimes are carried as their `isoformat`
strings, and the nested workflow `result` dict is abstracted to key/value
pairs). -/
structure MigRecord where
  status : String
  project_path : String
  project_type : String
  started_at : String
  completed_at : Option String
  duration_seconds : Option Int
  result : Option (List (String × String))
  errors : List String
  reports : Option Reports
  report_files : Option ReportFiles
  deriving DecidableEq, Repr

/-- The JSON response of `get_migration_status`. -/
structure StatusResponse where
  migration_id : String
  status : String
  project_path : String
  project_type : String
  started_at : String
  completed_at : Option String
  duration_seconds : Option Int
  result : Option (List (String × String))
  errors : List String
  reports : Option Reports
  reports_content : Option Reports
  deriving DecidableEq, Repr

/-- The in-memory `migrations_db`. -/
abbrev MigStore : Type := List (String × MigRecord)

/-- `migration_id in migrations_db` / `migrations_db[migration_id]`. -/
def lookupRecord (store : MigStore) (mid : String) : Option MigRecord :=
  match store with
  | [] => none
  | (k, v) :: r => if k = mid then some v else lookupRecord r mid

/-- Replace the record stored under `mid`. -/
def storeSet (store : MigStore) (mid : String) (m : MigRecord) : MigStore :=
  store.map (fun p => if p.1 = mid then (mid, m) else p)

/-- The report-link dict written by the handler. -/
def reportLinks (mid : String) : Reports :=
  { html := "/api/migrations/" ++ mid ++ "/report?type=html"
    markdown := "/api/migrations/" ++ mid ++ "/report?type=markdown"
    json := "/api/migrations/" ++ mid ++ "/report?type=json" }

/-- The report-content links added when `report_files` is present. -/
def reportContentLinks (mid : String) : Reports :=
  { html := "/api/migrations/" ++ mid ++ "/report_content?type=html"
    markdown := "/api/migrations/" ++ mid ++ "/report_content?type=markdown"
    json := "/api/migrations/" ++ mid ++ "/report_content?type=json" }

/-- The base response assembled from the stored record. -/
def baseResponse (mid : String) (m : MigRecord) : StatusResponse :=
  { migration_id := mid
    status := m.status
    project_path := m.project_path
    project_type := m.project_type
    started_at := m.started_at
    completed_at := m.completed_at
    duration_seconds := m.duration_seconds
    result := m.result
    errors := m.errors
    reports := none
    reports_content := none }

/-- The trailing `if migration.get("report_files")` block: `migration` is the
same dict object that may just have been mutated, so the check sees the
cached value. -/
def statusRespFinish (mid : String) (m : MigRecord) (resp : StatusResponse)
    (store : MigStore) : StatusResponse × MigStore :=
  if m.report_files.isSome then
    ({ resp with reports_content := some (reportContentLinks mid) }, store)
  else (resp, store)

/-- `get_migration_status`: look the record up (404 when absent), build the
snapshot response, and — when the run is complete but the record has no
cached report links and report files matching
`reports/{project}_migration_report_*.html` exist on disk — cache the links
and file paths into the record (`matchingReports` is the mtime-sorted glob
result, an input of the embedding). -/
def get_migration_status (store : MigStore) (matchingReports : List String)
    (mid : String) : Except (Nat × String) (StatusResponse × MigStore) :=
  match lookupRecord store mid with
  | none => .error (404, "Migration not found: " ++ mid)
  | some m =>
    let resp0 := baseResponse mid m
    match m.reports with
    | some r => .ok (statusRespFinish mid m { resp0 with reports := some r } store)
    | none =>
      if m.status = "deployed" || m.status = "error" then
        match matchingReports with
        | [] => .ok (statusRespFinish mid m resp0 store)
        | f :: _ =>
          let rl := reportLinks mid
          let rf : ReportFiles :=
            { html := f
              markdown := pyReplace f ".html" ".md"
              json := pyReplace f ".html" ".json" }
          let m' := { m with reports := some rl, report_files := some rf }
          .ok (statusRespFinish mid m' { resp0 with reports := some rl }
            (storeSet store mid m'))
      else .ok (statusRespFinish mid m resp0 store)

/-- The verdict the validator node would compute from a given agent
outcome: `false` for an exception, otherwise `valSuccessR`. -/
def valSuccessI : ValidatorInput → Bool
  | .raises _ => false
  | .completes r => valSuccessR r

/-- Well-formedness of a plan's `upgrade` entries for `requirements.txt`
rewriting: the package name contains no `=` (so the rewritten pin re-parses
to the same name) and the target version contains no newline (so the
rewritten line stays one line). -/
def UpgradeEntriesClean (deps : List (String × DepInfo)) : Prop :=
  ∀ e ∈ deps, e.2.action = "upgrade" →
    ('=' ∉ e.1.data ∧ '\n' ∉ e.2.target_version.data)

/-- The fix-suggestion list the error analyzer's outcome carries: the list
returned on the success shape, and the empty (falsy) list when the agent
errored or raised — exactly what `should_retry_validation` will see. -/
def analyzerFixes : AnalyzerInput → List String
  | .completes (.aSuccess a) => a.fix_suggestions
  | .completes (.aError _) => []
  | .raises _ => []

/-! ### Concrete scenario inputs

Closed environments, worlds, plans and records used to instantiate the
theorems below on concrete runs. -/

/-- A happy-path environment: provisioning, install, application start and
health check all succeed, and the project declares no tests. -/
def envHappy : DockerEnv :=
  { projectType := "nodejs"
    containerName := "migration-test-app"
    containerId := "0123456789abcdef"
    createRaises := none
    startRaises := none
    copyRaises := none
    migrationPlan := none
    applyRaises := none
    installExit := 0
    installOutput := "added 50 packages"
    startAppRaises := none
    startAppOutput := "server started"
    healthRaises := none
    health := { success := true
                process_running := true
                process_output := some "node server.js"
                logs := none }
    tests := { success := false
               tests_found := false
               exit_code := none
               output := ""
               test_summary := "No tests configured in package.json" }
    cleanupContainers := true }

/-- Like `envHappy`, but the project declares tests and they fail. -/
def envTestsFail : DockerEnv :=
  { envHappy with
    tests := { success := false
               tests_found := true
               exit_code := some 1
               output := "1 failing"
               test_summary := "Tests failed" } }

/-- Like `envHappy`, but the install command exits non-zero. -/
def envInstallFail : DockerEnv :=
  { envHappy with installExit := 1, installOutput := "npm ERR! code E404" }

/-- Like `envInstallFail`, but with different later-phase behaviour (the app
would crash and the health check would fail), to witness that the later
phases cannot influence an install-failed run. -/
def envInstallFailAlt : DockerEnv :=
  { envInstallFail with
    startAppRaises := some "app crashed"
    health := { success := false
                process_running := false
                process_output := none
                logs := none } }

/-- Like `envHappy`, but `container.start()` raises after the create call
succeeded. -/
def envStartRaises : DockerEnv :=
  { envHappy with startRaises := some "error starting container" }

/-- Like `envHappy`, but with an ecosystem the validator does not support. -/
def envBadType : DockerEnv :=
  { envHappy with projectType := "ruby" }

/-- A daemon with no containers and an empty `self.containers` list. -/
def emptyWorld : SandboxWorld := { docker := [], tracked := [] }

/-- A broadcaster whose send always raises. -/
def failingSink : Broadcaster := fun _ => Except.error "connection closed"

/-- A one-entry migration plan upgrading `flask`. -/
def planFlask : MPlan :=
  ⟨[("flask", { action := "upgrade", target_version := "2.0" })]⟩

/-- A small `package.json` manifest. -/
def pkgSample : PackageData :=
  { dependencies := [("flask", "1.0"), ("lodash", "4.17.21")]
    devDependencies := [("jest", "29.0.0")]
    rest := [("name", "sample-app")] }

/-- A completed migration record with no cached report links. -/
def recDeployed : MigRecord :=
  { status := "deployed"
    project_path := "/p"
    project_type := "nodejs"
    started_at := "2024-01-01T00:00:00"
    completed_at := some "2024-01-01T00:05:00"
    duration_seconds := some 300
    result := none
    errors := []
    reports := none
    report_files := none }

/-! ## Theorems -/

/-- The `finally` block never changes the result dict, only the world. -/
theorem finalizeVP_fst (cu : Bool) (c : Option String) (r : DockerResult)
    (w : SandboxWorld) : (finalizeVP cu c r w).1 = r := by
  unfold finalizeVP
  cases c with
  | none => rfl
  | some n => by_cases h : cu = true <;> simp [h]

/-- The overall verdict is `"success"` iff install, start and health
succeeded and tests were skipped or passed. -/
theorem vp_success_iff (env : DockerEnv) (w : SandboxWorld) :
    ((validate_project env w).1.status = "success") ↔
      ((validate_project env w).1.install_success = true ∧
       (validate_project env w).1.runtime_success = true ∧
       (validate_project env w).1.health_check_success = true ∧
       ((validate_project env w).1.tests_run = false ∨
        (validate_project env w).1.tests_passed = true)) := by
  unfold validate_project create_container install_dependencies
  dsimp only
  repeat' split
  all_goals simp_all [finalizeVP_fst, initResult]

/-- The result status is always `"success"` or `"error"`. -/
theorem vp_status_cases (env : DockerEnv) (w : SandboxWorld) :
    (validate_project env w).1.status = "success" ∨
      (validate_project env w).1.status = "error" := by
  unfold validate_project create_container install_dependencies
  dsimp only
  repeat' split
  all_goals simp_all [finalizeVP_fst, initResult]

/-- A raised exception's message is recorded in the errors list. -/
theorem vp_exn_recorded (env : DockerEnv) (w : SandboxWorld) (m : String)
    (h : firstExn env = some m) : m ∈ (validate_project env w).1.errors := by
  unfold firstExn firstExnAfterType at h
  unfold validate_project create_container install_dependencies
  dsimp only
  repeat' split
  all_goals repeat' split at h
  all_goals simp_all [finalizeVP_fst, initResult]

/-- An install failure short-circuits the run: error verdict, the install
output as evidence, no later-phase logs or successes, and full independence
from the later-phase behaviour. -/
theorem vp_install_fail (env env' : DockerEnv) (w : SandboxWorld)
    (hpt : env.projectType = "nodejs" ∨ env.projectType = "python")
    (hcr : env.createRaises = none) (hsr : env.startRaises = none)
    (hcp : env.copyRaises = none)
    (hap : env.migrationPlan.isSome → env.applyRaises = none)
    (hie : env.installExit ≠ 0)
    (hag : EnvAgreesThroughInstall env env') :
    (validate_project env w).1.status = "error" ∧
      ("Dependency installation failed: " ++ env.installOutput) ∈
        (validate_project env w).1.errors ∧
      (validate_project env w).1.logs.startup = none ∧
      (validate_project env w).1.logs.health_check = none ∧
      (validate_project env w).1.logs.tests = none ∧
      (validate_project env w).1.runtime_success = false ∧
      (validate_project env w).1.health_check_success = false ∧
      (validate_project env w).1.tests_run = false ∧
      validate_project env w = validate_project env' w := by
  obtain ⟨h1, h2, h3, h4, h5, h6, h7, h8, h9, h10, h11⟩ := hag
  have hcr' : env'.createRaises = none := by rw [← h4]; exact hcr
  have hsr' : env'.startRaises = none := by rw [← h5]; exact hsr
  have hcp' : env'.copyRaises = none := by rw [← h6]; exact hcp
  have hie' : env'.installExit ≠ 0 := by rw [← h9]; exact hie
  have hapXe : (match env.migrationPlan with
      | some _ => env.applyRaises
      | none => none) = none := by
    rcases hm : env.migrationPlan with _ | mp
    · simp
    · have hap2 : env.applyRaises = none := hap (by simp [hm])
      simp [hap2]
  have hapX : (match env'.migrationPlan with
      | some _ => env'.applyRaises
      | none => none) = none := by
    rw [← h7, ← h8]; exact hapXe
  rcases hpt with h | h <;> (have h' := h; rw [h1] at h') <;>
    refine ⟨?_, ?_, ?_, ?_, ?_, ?_, ?_, ?_, ?_⟩ <;>
    simp [validate_project, create_container, install_dependencies, finalizeVP,
      h, h', ← h2, ← h3, ← h10, ← h11, hcr, hcr', hsr, hsr', hcp, hcp',
      hapXe, hapX, hie, hie', initResult, apply_ite]
  all_goals (by_cases hcc : env.cleanupContainers = true <;> simp [hcc])

/-- Setting the state of a present container makes its state that value. -/
theorem containerStatus_set (d : List (String × CStatus)) (n : String)
    (s s0 : CStatus) (h : containerStatus d n = some s0) :
    containerStatus (setContainerStatus d n s) n = some s := by
  induction d with
  | nil => simp [containerStatus] at h
  | cons p r ih =>
    obtain ⟨pn, ps⟩ := p
    rw [setContainerStatus, List.map_cons]
    rw [containerStatus] at h
    by_cases hn : pn = n
    · subst hn
      show containerStatus ((if pn = pn then (pn, s) else (pn, ps)) :: _) pn = some s
      rw [if_pos rfl, containerStatus, if_pos rfl]
    · rw [if_neg hn] at h
      show containerStatus ((if pn = n then (n, s) else (pn, ps)) :: _) n = some s
      rw [if_neg hn, containerStatus, if_neg hn]
      exact ih h

/-- An erased container is gone. -/
theorem containerStatus_erase (d : List (String × CStatus)) (n : String) :
    containerStatus (eraseContainer d n) n = none := by
  induction d with
  | nil => rfl
  | cons p r ih =>
    by_cases hn : p.1 = n <;> simp [eraseContainer, containerStatus, hn] at ih ⊢ <;>
      simpa [eraseContainer, hn] using ih

/-- Tearing down a container known to the daemon removes it. -/
theorem cleanup_container_removes (w : SandboxWorld) (n : String) (s : CStatus)
    (h : containerStatus w.docker n = some s) :
    containerStatus (cleanup_container w n).docker n = none := by
  unfold cleanup_container containerStop containerRemove
  simp [h, containerStatus_set w.docker n .stopped s h, containerStatus_erase]

/-- `_cleanup_container` is idempotent: a second teardown of the same
container is a no-op (and in particular never raises — every failing daemon
call inside it is swallowed by its `try/except`). -/
theorem cleanup_container_idem (w : SandboxWorld) (n : String) :
    cleanup_container (cleanup_container w n) n = cleanup_container w n := by
  rcases hs : containerStatus w.docker n with _ | s
  · unfold cleanup_container containerStop
    simp [hs]
  · have h2 : containerStatus (cleanup_container w n).docker n = none :=
      cleanup_container_removes w n s hs
    conv_lhs => rw [cleanup_container]
    rw [containerStop] at *
    simp [h2]

/-- When provisioning succeeds, the session always ends torn down (cleanup
configured) or retained alive (cleanup disabled), on every later phase
outcome. -/
theorem vp_session_teardown (env : DockerEnv) (w : SandboxWorld)
    (hpt : env.projectType = "nodejs" ∨ env.projectType = "python")
    (hcr : env.createRaises = none) (hsr : env.startRaises = none) :
    (env.cleanupContainers = true →
      containerStatus (validate_project env w).2.docker env.containerName = none) ∧
    (env.cleanupContainers = false →
      containerStatus (validate_project env w).2.docker env.containerName =
        some .running) := by
  have hrun : containerStatus
      (setContainerStatus ((env.containerName, CStatus.created) ::
        eraseContainer w.docker env.containerName) env.containerName .running)
      env.containerName = some .running := by
    refine containerStatus_set _ _ _ .created ?_
    rw [containerStatus, if_pos rfl]
  have hrem : containerStatus (cleanup_container
      { docker := setContainerStatus ((env.containerName, CStatus.created) ::
          eraseContainer w.docker env.containerName) env.containerName .running
        tracked := w.tracked ++ [env.containerName] } env.containerName).docker
      env.containerName = none :=
    cleanup_container_removes _ _ _ hrun
  constructor <;> intro hcc
  all_goals rcases hpt with h | h
  all_goals first
    | (have hcre : create_container env w =
          ({ docker := setContainerStatus ((env.containerName, CStatus.created) ::
              eraseContainer w.docker env.containerName) env.containerName .running
             tracked := w.tracked ++ [env.containerName] },
           Except.ok (env.containerName, 3000)) := by
          simp [create_container, h, hcr, hsr])
    | (have hcre : create_container env w =
          ({ docker := setContainerStatus ((env.containerName, CStatus.created) ::
              eraseContainer w.docker env.containerName) env.containerName .running
             tracked := w.tracked ++ [env.containerName] },
           Except.ok (env.containerName, 5000)) := by
          simp [create_container, h, hcr, hsr])
  all_goals unfold validate_project install_dependencies
  all_goals simp only [hcre]
  all_goals repeat' split
  all_goals simp_all [finalizeVP, hcc, hrem, hrun]

/-! ### Lemmas about `_update_package_json` -/

/-- `setIfPresent` is the key-preserving map, whether or not the key occurs. -/
theorem setIfPresent_eq_map (k v : String) (l : List (String × String)) :
    setIfPresent k v l = l.map (fun p => if p.1 = k then (k, v) else p) := by
  unfold setIfPresent
  split
  · rfl
  · next hna =>
    induction l with
    | nil => rfl
    | cons p r ih =>
      simp only [List.any_cons, Bool.or_eq_true, decide_eq_true_eq, not_or] at hna
      rw [List.map_cons, if_neg hna.1, ← ih (by simpa using hna.2)]

/-- Updating the same key twice with the same value is the same as once. -/
theorem setIfPresent_idem (k v : String) (l : List (String × String)) :
    setIfPresent k v (setIfPresent k v l) = setIfPresent k v l := by
  rw [setIfPresent_eq_map, setIfPresent_eq_map, List.map_map]
  refine List.map_congr_left ?_
  intro p _
  by_cases h : p.1 = k <;> simp [h]

/-- Removing the same key twice is the same as once. -/
theorem popKey_idem (k : String) (l : List (String × String)) :
    popKey k (popKey k l) = popKey k l := by
  unfold popKey
  rw [List.filter_filter]
  exact List.filter_congr (by intro p _; by_cases h : p.1 = k <;> simp [h])

/-- Update and removal at distinct keys commute. -/
theorem setIfPresent_popKey_comm (k k' v : String) (l : List (String × String))
    (h : k ≠ k') :
    setIfPresent k v (popKey k' l) = popKey k' (setIfPresent k v l) := by
  rw [setIfPresent_eq_map, setIfPresent_eq_map]
  unfold popKey
  induction l with
  | nil => rfl
  | cons p r ih =>
    by_cases hp : p.1 = k' <;> by_cases hk : p.1 = k <;>
      simp_all [List.filter_cons, h, h.symm]

/-- Updates at distinct keys commute. -/
theorem setIfPresent_comm (k1 k2 v1 v2 : String) (l : List (String × String))
    (h : k1 ≠ k2) :
    setIfPresent k1 v1 (setIfPresent k2 v2 l) =
      setIfPresent k2 v2 (setIfPresent k1 v1 l) := by
  rw [setIfPresent_eq_map, setIfPresent_eq_map, setIfPresent_eq_map,
    setIfPresent_eq_map, List.map_map, List.map_map]
  refine List.map_congr_left ?_
  intro p _
  by_cases h2 : p.1 = k2 <;> by_cases h1 : p.1 = k1 <;>
    simp [h2, h1, h, h.symm, Function.comp]

/-- Removals at distinct keys commute. -/
theorem popKey_comm (k1 k2 : String) (l : List (String × String)) :
    popKey k1 (popKey k2 l) = popKey k2 (popKey k1 l) := by
  unfold popKey
  rw [List.filter_filter, List.filter_filter]
  exact List.filter_congr (by intro p _; by_cases h1 : p.1 = k1 <;> simp [h1])

/-- The effect of one plan entry on one dependency group. -/
def groupOp (e : String × DepInfo) (l : List (String × String)) : List (String × String) :=
  if e.2.action = "upgrade" && !(e.2.target_version = "") then
    setIfPresent e.1 e.2.target_version l
  else if e.2.action = "remove" then popKey e.1 l
  else l

/-- `applyDepJson` acts group-wise and never touches the other members. -/
theorem applyDepJson_eq (p : PackageData) (e : String × DepInfo) :
    applyDepJson p e =
      { dependencies := groupOp e p.dependencies
        devDependencies := groupOp e p.devDependencies
        rest := p.rest } := by
  unfold applyDepJson groupOp
  repeat' split
  all_goals simp_all

/-- One plan entry's group action is idempotent. -/
theorem groupOp_idem (e : String × DepInfo) (l : List (String × String)) :
    groupOp e (groupOp e l) = groupOp e l := by
  unfold groupOp
  repeat' split
  all_goals simp [setIfPresent_idem, popKey_idem]

/-- Plan entries with distinct dependency names commute. -/
theorem groupOp_comm (e1 e2 : String × DepInfo) (l : List (String × String))
    (h : e1.1 ≠ e2.1) :
    groupOp e1 (groupOp e2 l) = groupOp e2 (groupOp e1 l) := by
  unfold groupOp
  repeat' split
  all_goals simp [setIfPresent_comm _ _ _ _ _ h, setIfPresent_popKey_comm _ _ _ _ h,
    setIfPresent_popKey_comm _ _ _ _ h.symm, popKey_comm]

/-- A fold of group actions over entries whose names avoid `e.1` commutes
with `e`'s action. -/
theorem groupOp_foldl_comm (e : String × DepInfo) (rest : List (String × DepInfo))
    (l : List (String × String)) (h : ∀ e' ∈ rest, e.1 ≠ e'.1) :
    groupOp e (rest.foldl (fun acc e' => groupOp e' acc) l) =
      rest.foldl (fun acc e' => groupOp e' acc) (groupOp e l) := by
  induction rest generalizing l with
  | nil => rfl
  | cons e' r ih =>
    rw [List.foldl_cons, List.foldl_cons,
      ← groupOp_comm e e' l (h e' (List.mem_cons_self e' r))]
    exact ih _ (fun x hx => h x (List.mem_cons_of_mem _ hx))

/-- `_update_package_json` acts independently on the two dependency groups
and never touches any other member of the manifest. -/
theorem update_package_json_components (plan : MPlan) (p : PackageData) :
    update_package_json plan p =
      { dependencies := plan.dependencies.foldl (fun acc e => groupOp e acc) p.dependencies
        devDependencies :=
          plan.dependencies.foldl (fun acc e => groupOp e acc) p.devDependencies
        rest := p.rest } := by
  unfold update_package_json
  generalize plan.dependencies = entries
  induction entries generalizing p with
  | nil => simp
  | cons e r ih =>
    rw [List.foldl_cons, List.foldl_cons, List.foldl_cons, applyDepJson_eq]
    simpa using ih
      { dependencies := groupOp e p.dependencies
        devDependencies := groupOp e p.devDependencies
        rest := p.rest }

/-- A fold of the per-entry group actions over a duplicate-free plan is
idempotent. -/
theorem groupFold_idem (entries : List (String × DepInfo)) (l : List (String × String))
    (hnd : (entries.map Prod.fst).Nodup) :
    entries.foldl (fun acc e => groupOp e acc)
        (entries.foldl (fun acc e => groupOp e acc) l) =
      entries.foldl (fun acc e => groupOp e acc) l := by
  induction entries generalizing l with
  | nil => rfl
  | cons e r ih =>
    rw [List.map_cons, List.nodup_cons] at hnd
    have hne : ∀ e' ∈ r, e.1 ≠ e'.1 := by
      intro e' he' heq
      exact hnd.1 (heq ▸ List.mem_map_of_mem Prod.fst he')
    rw [List.foldl_cons, List.foldl_cons,
      groupOp_foldl_comm e r _ hne, groupOp_idem]
    exact ih _ hnd.2

/-- Keys different from the updated one keep their binding under
`setIfPresent`. -/
theorem alookup_setIfPresent (k k' v : String) (l : List (String × String))
    (h : k ≠ k') : alookup k (setIfPresent k' v l) = alookup k l := by
  rw [setIfPresent_eq_map]
  induction l with
  | nil => rfl
  | cons p r ih =>
    obtain ⟨pn, pv⟩ := p
    by_cases hp : pn = k'
    · subst hp
      show alookup k ((if pn = pn then (pn, v) else (pn, pv)) :: _) = _
      rw [if_pos rfl, alookup, alookup, if_neg (by simpa using (Ne.symm h)),
        if_neg (by simpa using (Ne.symm h))]
      exact ih
    · show alookup k ((if pn = k' then (k', v) else (pn, pv)) :: _) = _
      rw [if_neg hp, alookup, alookup]
      by_cases hk : pn = k <;> simp [hk, ih]

/-- Keys different from the removed one keep their binding under `popKey`. -/
theorem alookup_popKey (k k' : String) (l : List (String × String))
    (h : k ≠ k') : alookup k (popKey k' l) = alookup k l := by
  unfold popKey
  induction l with
  | nil => rfl
  | cons p r ih =>
    obtain ⟨pn, pv⟩ := p
    rw [List.filter_cons]
    by_cases hp : pn = k'
    · subst hp
      rw [if_neg (by simp), alookup, if_neg (by simpa using (Ne.symm h))]
      exact ih
    · rw [if_pos (by simpa using hp), alookup, alookup]
      by_cases hk : pn = k <;> simp [hk, ih]

/-- A key absent from a plan entry keeps its binding under that entry. -/
theorem alookup_groupOp (k : String) (e : String × DepInfo)
    (l : List (String × String)) (h : k ≠ e.1) :
    alookup k (groupOp e l) = alookup k l := by
  unfold groupOp
  repeat' split
  all_goals simp [alookup_setIfPresent _ _ _ _ h, alookup_popKey _ _ _ h]

/-- A key absent from the whole plan keeps its binding under the fold. -/
theorem alookup_groupFold (k : String) (entries : List (String × DepInfo))
    (l : List (String × String)) (h : ∀ e ∈ entries, k ≠ e.1) :
    alookup k (entries.foldl (fun acc e => groupOp e acc) l) = alookup k l := by
  induction entries generalizing l with
  | nil => rfl
  | cons e r ih =>
    rw [List.foldl_cons, ih _ (fun x hx => h x (List.mem_cons_of_mem _ hx)),
      alookup_groupOp k e l (h e (List.mem_cons_self e r))]

/-! ### Lemmas about `str.strip` -/

/-- The head surviving `dropWhile` fails the predicate. -/
theorem dropWhile_head_not (p : Char → Bool) (l : List Char) (c : Char)
    (h : (l.dropWhile p).head? = some c) : p c = false := by
  induction l with
  | nil => simp [List.dropWhile] at h
  | cons x xs ih =>
    rw [List.dropWhile_cons] at h
    by_cases hx : p x = true
    · exact ih (by simpa [hx] using h)
    · have hxc : x = c := by simpa [hx] using h
      subst hxc
      simpa using hx

/-- A list whose head fails the predicate is untouched by `dropWhile`. -/
theorem dropWhile_of_head_not (p : Char → Bool) (l : List Char)
    (h : ∀ c, l.head? = some c → p c = false) : l.dropWhile p = l := by
  cases l with
  | nil => rfl
  | cons x xs =>
    rw [List.dropWhile_cons, if_neg (by simp [h x rfl])]

/-- `dropWhile` stops no later than a failing element. -/
theorem dropWhile_append_cons (p : Char → Bool) (u v : List Char) (x : Char)
    (hx : p x = false) :
    List.dropWhile p (u ++ x :: v) = List.dropWhile p u ++ x :: v := by
  induction u with
  | nil => simp [List.dropWhile_cons, hx]
  | cons c cs ih =>
    by_cases hc : p c = true <;>
      simp [List.dropWhile_cons, hc, ih]

/-- Right-side analogue of `dropWhile_append_cons`. -/
theorem dropRightWhileL_append_cons (p : Char → Bool) (a b : List Char) (x : Char)
    (hx : p x = false) :
    dropRightWhileL p (a ++ x :: b) = a ++ x :: dropRightWhileL p b := by
  unfold dropRightWhileL
  rw [List.reverse_append, List.reverse_cons, List.append_assoc,
    List.singleton_append, dropWhile_append_cons p _ _ x hx]
  simp

/-- The last element surviving `dropRightWhileL` fails the predicate. -/
theorem dropRightWhileL_last_not (p : Char → Bool) (l : List Char) (c : Char)
    (h : (dropRightWhileL p l).getLast? = some c) : p c = false := by
  unfold dropRightWhileL at h
  rw [List.getLast?_reverse] at h
  exact dropWhile_head_not p _ c h

/-- A list whose last element fails the predicate is untouched by
`dropRightWhileL`. -/
theorem dropRightWhileL_of_last_not (p : Char → Bool) (l : List Char)
    (h : ∀ c, l.getLast? = some c → p c = false) : dropRightWhileL p l = l := by
  unfold dropRightWhileL
  rw [dropWhile_of_head_not p _ (by simpa [List.head?_reverse] using h), List.reverse_reverse]

/-- The head of the stripped list fails the whitespace predicate. -/
theorem stripL_head_not (l : List Char) (c : Char)
    (h : (stripL l).head? = some c) : pyIsSpace c = false := by
  unfold stripL at h
  have hpre : dropRightWhileL pyIsSpace (l.dropWhile pyIsSpace) <+: l.dropWhile pyIsSpace := by
    unfold dropRightWhileL
    have := List.dropWhile_suffix (l := (l.dropWhile pyIsSpace).reverse) (p := pyIsSpace)
    exact List.reverse_suffix.mp (by simpa using this)
  obtain ⟨t, ht⟩ := hpre
  have : (l.dropWhile pyIsSpace).head? = some c := by
    rw [← ht]
    cases hh : dropRightWhileL pyIsSpace (l.dropWhile pyIsSpace) with
    | nil => rw [hh] at h; simp at h
    | cons y ys =>
      rw [hh] at h
      simp only [List.head?_cons, Option.some.injEq] at h
      subst h
      simp
  exact dropWhile_head_not _ _ _ this

/-- The last element of the stripped list fails the whitespace predicate. -/
theorem stripL_last_not (l : List Char) (c : Char)
    (h : (stripL l).getLast? = some c) : pyIsSpace c = false :=
  dropRightWhileL_last_not _ _ _ h

/-- A list already clean on both ends is untouched by `stripL`. -/
theorem stripL_of_clean (l : List Char)
    (h1 : ∀ c, l.head? = some c → pyIsSpace c = false)
    (h2 : ∀ c, l.getLast? = some c → pyIsSpace c = false) : stripL l = l := by
  unfold stripL
  rw [dropWhile_of_head_not _ _ h1, dropRightWhileL_of_last_not _ _ h2]

/-- Stripping is idempotent. -/
theorem stripL_idem (l : List Char) : stripL (stripL l) = stripL l :=
  stripL_of_clean _ (stripL_head_not l) (stripL_last_not l)

/-- Stripping only removes characters. -/
theorem mem_of_mem_stripL (l : List Char) (c : Char) (h : c ∈ stripL l) : c ∈ l := by
  unfold stripL dropRightWhileL at h
  simp only [List.mem_reverse] at h
  have h2 := (List.dropWhile_sublist (l := (l.dropWhile pyIsSpace).reverse)
    (p := pyIsSpace)).mem h
  simp only [List.mem_reverse] at h2
  exact (List.dropWhile_sublist (l := l) (p := pyIsSpace)).mem h2

/-! ### Lemmas about `takeBeforeSub` and line splitting -/

/-- `takeBeforeSub` returns a prefix, so it only contains characters of the
input. -/
theorem mem_of_mem_takeBeforeSub (sep l : List Char) (c : Char)
    (h : c ∈ takeBeforeSub sep l) : c ∈ l := by
  induction l with
  | nil => simpa [takeBeforeSub] using h
  | cons x xs ih =>
    rw [takeBeforeSub] at h
    by_cases hp : sep.isPrefixOf (x :: xs)
    · simp [hp] at h
    · rcases (by simpa [hp] using h : c = x ∨ c ∈ takeBeforeSub sep xs) with h1 | h1
      · simp [h1]
      · simp [ih h1]

/-- `takeBeforeSub` keeps the head when it keeps anything. -/
theorem takeBeforeSub_head (sep l : List Char) :
    takeBeforeSub sep l = [] ∨ (takeBeforeSub sep l).head? = l.head? := by
  cases l with
  | nil => exact .inl rfl
  | cons x xs =>
    rw [takeBeforeSub]
    by_cases hp : sep.isPrefixOf (x :: xs)
    · simp [hp]
    · simp [hp]

/-- A two-character separator whose second character does not occur in the
list never matches. -/
theorem takeBeforeSub_two_notMem (a b : Char) (l : List Char) (h : b ∉ l) :
    takeBeforeSub [a, b] l = l := by
  induction l with
  | nil => rfl
  | cons x xs ih =>
    rw [takeBeforeSub]
    have hnp : [a, b].isPrefixOf (x :: xs) = false := by
      cases xs with
      | nil => simp [List.isPrefixOf]
      | cons y ys =>
        simp only [List.isPrefixOf_cons₂]
        by_cases hax : a = x
        · simp only [List.mem_cons, not_or] at h
          simp [List.isPrefixOf, hax, h.2.1]
        · simp [List.isPrefixOf, hax]
    rw [hnp]
    simp only [Bool.false_eq_true, if_neg, ite_false]
    rw [ih (fun hb => h (List.mem_cons_of_mem x hb))]

/-- The text before the `==` introduced by the rewrite is exactly the
package name, provided the name contains no `=`. -/
theorem takeBeforeSub_eqeq_append (a b : List Char) (h : '=' ∉ a) :
    takeBeforeSub ['=', '='] (a ++ '=' :: '=' :: b) = a := by
  induction a with
  | nil =>
    rw [List.nil_append, takeBeforeSub]
    simp [List.isPrefixOf]
  | cons x xs ih =>
    simp only [List.mem_cons, not_or] at h
    rw [List.cons_append, takeBeforeSub]
    have hnp : ['=', '='].isPrefixOf (x :: (xs ++ '=' :: '=' :: b)) = false := by
      simp [List.isPrefixOf, h.1]
    rw [hnp]
    simp only [Bool.false_eq_true, if_neg, ite_false]
    rw [ih h.2]

/-- `splitCharAux` on a list without the separator. -/
theorem splitCharAux_no_sep (c : Char) (l : List Char) (h : c ∉ l) :
    splitCharAux c l = (l, []) := by
  induction l with
  | nil => rfl
  | cons x xs ih =>
    simp only [List.mem_cons, not_or] at h
    rw [splitCharAux, ih h.2, if_neg (Ne.symm h.1)]

/-- `splitCharAux` across the first separator occurrence. -/
theorem splitCharAux_append_cons (c : Char) (l rest : List Char) (h : c ∉ l) :
    splitCharAux c (l ++ c :: rest) =
      (l, (splitCharAux c rest).1 :: (splitCharAux c rest).2) := by
  induction l with
  | nil => simp [splitCharAux]
  | cons x xs ih =>
    simp only [List.mem_cons, not_or] at h
    rw [List.cons_append, splitCharAux, ih h.2, if_neg (Ne.symm h.1)]

/-- Every field produced by splitting is free of the separator. -/
theorem splitCharAux_fields_no_sep (c : Char) (l : List Char) :
    c ∉ (splitCharAux c l).1 ∧ ∀ m ∈ (splitCharAux c l).2, c ∉ m := by
  induction l with
  | nil => simp [splitCharAux]
  | cons x xs ih =>
    rw [splitCharAux]
    by_cases hx : x = c
    · simpa [hx] using ⟨ih.1, ih.2⟩
    · refine ⟨?_, by simpa [hx] using ih.2⟩
      simp only [hx, if_neg, ite_false]
      simp only [List.mem_cons, not_or]
      exact ⟨fun hc => hx hc.symm, ih.1⟩

/-- Splitting inverts joining for non-empty field lists free of the
separator. -/
theorem splitCharL_joinCharL (c : Char) (ls : List (List Char)) (hne : ls ≠ [])
    (h : ∀ m ∈ ls, c ∉ m) : splitCharL c (joinCharL c ls) = ls := by
  induction ls with
  | nil => exact absurd rfl hne
  | cons l rest ih =>
    cases rest with
    | nil =>
      rw [joinCharL, splitCharL, splitCharAux_no_sep c l (h l (by simp))]
    | cons l2 rest2 =>
      have hj : joinCharL c (l :: l2 :: rest2) = l ++ c :: joinCharL c (l2 :: rest2) := rfl
      rw [hj, splitCharL,
        splitCharAux_append_cons c l _ (h l (by simp))]
      have := ih (List.cons_ne_nil _ _) (fun m hm => h m (List.mem_cons_of_mem l hm))
      rw [splitCharL] at this
      simpa using this

/-- A `filterMap` over elements it fixes is the identity. -/
theorem filterMap_fixed {α : Type} (g : α → Option α) (ls : List α)
    (h : ∀ m ∈ ls, g m = some m) : ls.filterMap g = ls := by
  induction ls with
  | nil => rfl
  | cons x xs ih =>
    rw [List.filterMap_cons, h x (by simp)]
    rw [ih (fun m hm => h m (List.mem_cons_of_mem x hm))]

/-! ### Stability of the `requirements.txt` line rewrite -/

/-- A successful dict lookup returns a stored entry. -/
theorem lookupDep_mem (deps : List (String × DepInfo)) (k : String) (i : DepInfo)
    (h : lookupDep deps k = some i) : (k, i) ∈ deps := by
  induction deps with
  | nil => simp [lookupDep] at h
  | cons p r ih =>
    obtain ⟨pk, pv⟩ := p
    rw [lookupDep] at h
    by_cases hk : pk = k
    · subst hk
      have hpv : pv = i := by simpa using h
      subst hpv
      simp
    · rw [if_neg hk] at h
      exact List.mem_cons_of_mem _ (ih h)

/-- The parsed package name is whitespace-stripped. -/
theorem parsePkgL_stripped (l : List Char) : stripL (parsePkgL l) = parsePkgL l := by
  unfold parsePkgL
  exact stripL_idem _

/-- Parsing the rewritten pin `pkg==target` recovers `pkg` when `pkg`
contains no `=`. -/
theorem parsePkgL_append_pin (pkg t : List Char) (hk : '=' ∉ pkg)
    (hs : stripL pkg = pkg) :
    parsePkgL (pkg ++ '=' :: '=' :: t) = pkg := by
  unfold parsePkgL
  rw [takeBeforeSub_eqeq_append pkg t hk,
    takeBeforeSub_two_notMem '>' '=' pkg hk,
    takeBeforeSub_two_notMem '<' '=' pkg hk, hs]

/-- `dropRightWhileL` keeps the head when it keeps anything. -/
theorem dropRightWhileL_head (p : Char → Bool) (l : List Char) :
    dropRightWhileL p l = [] ∨ (dropRightWhileL p l).head? = l.head? := by
  have hpre : dropRightWhileL p l <+: l := by
    unfold dropRightWhileL
    have := List.dropWhile_suffix (l := l.reverse) (p := p)
    exact List.reverse_suffix.mp (by simpa using this)
  obtain ⟨t, ht⟩ := hpre
  cases hh : dropRightWhileL p l with
  | nil => exact .inl rfl
  | cons y ys =>
    refine .inr ?_
    rw [← ht, hh]
    simp

/-- The rewritten pin line strips to the package name, the separator and the
right-stripped target. -/
theorem stripL_pin (pkg t : List Char)
    (hh : ∀ c, (pkg ++ '=' :: '=' :: t).head? = some c → pyIsSpace c = false) :
    stripL (pkg ++ '=' :: '=' :: t) =
      pkg ++ '=' :: '=' :: dropRightWhileL pyIsSpace t := by
  unfold stripL
  rw [dropWhile_of_head_not _ _ hh]
  have : pkg ++ '=' :: '=' :: t = (pkg ++ ['=']) ++ '=' :: t := by simp
  rw [this, dropRightWhileL_append_cons pyIsSpace _ t '=' (by decide)]
  simp

/-- The head of the parsed package name, when there is one, is the head of
the line. -/
theorem parsePkgL_head (l : List Char)
    (hl : ∀ c, l.head? = some c → pyIsSpace c = false) :
    parsePkgL l = [] ∨ (parsePkgL l).head? = l.head? := by
  unfold parsePkgL
  rcases takeBeforeSub_head ['=', '='] l with h1 | h1
  · rw [h1]
    exact .inl rfl
  · rcases takeBeforeSub_head ['>', '='] (takeBeforeSub ['=', '='] l) with h2 | h2
    · rw [h2]
      exact .inl rfl
    · rcases takeBeforeSub_head ['<', '=']
          (takeBeforeSub ['>', '='] (takeBeforeSub ['=', '='] l)) with h3 | h3
      · rw [h3]
        exact .inl rfl
      · set t := takeBeforeSub ['<', '='] (takeBeforeSub ['>', '='] (takeBeforeSub ['=', '='] l))
        have hth : t.head? = l.head? := by rw [h3, h2, h1]
        unfold stripL
        rw [dropWhile_of_head_not _ _ (fun c hc => hl c (hth ▸ hc))]
        rcases dropRightWhileL_head pyIsSpace t with h4 | h4
        · rw [h4]
          exact .inl rfl
        · rw [h4, hth]
          exact .inr rfl

/-- Mid-level stability: processing any line the loop has produced leaves it
unchanged, for plans whose upgrade entries are clean. -/
theorem reqLine_stable (deps : List (String × DepInfo))
    (hplan : UpgradeEntriesClean deps) (raw out : List Char)
    (h : reqLine deps raw = some out) : reqLine deps out = some out := by
  unfold reqLine at h ⊢
  rcases hsl : stripL raw with _ | ⟨c, rest⟩
  · rw [hsl] at h
    have hout : out = [] := by simpa [reqLineStripped] using h.symm
    subst hout
    rfl
  · rw [hsl] at h
    have hc0 : pyIsSpace c = false := stripL_head_not raw c (by rw [hsl]; rfl)
    have hstab : stripL (c :: rest) = c :: rest := by
      rw [← hsl, stripL_idem]
    rw [reqLineStripped] at h
    by_cases hc : c = '#'
    · rw [if_pos hc] at h
      have hout : out = c :: rest := by simpa using h.symm
      subst hout
      rw [hstab, reqLineStripped, if_pos hc]
    · rw [if_neg hc] at h
      rcases hlk : lookupDep deps (String.mk (parsePkgL (c :: rest))) with _ | info
      · rw [hlk] at h
        have hout : out = c :: rest := by simpa using h.symm
        subst hout
        rw [hstab, reqLineStripped, if_neg hc, hlk]
      · rw [hlk] at h
        dsimp only at h
        by_cases hup : (info.action = "upgrade" && !(info.target_version = "")) = true
        · rw [if_pos hup] at h
          have hout : out = parsePkgL (c :: rest) ++ '=' :: '=' ::
              info.target_version.data := by simpa using h.symm
          obtain ⟨pkg, hpkg⟩ : ∃ pkg, parsePkgL (c :: rest) = pkg := ⟨_, rfl⟩
          rw [hpkg] at hlk hout
          have hprop := hup
          simp only [Bool.and_eq_true, decide_eq_true_eq, Bool.not_eq_eq_eq_not,
            Bool.not_true, decide_eq_false_iff_not] at hprop
          have hmem := lookupDep_mem _ _ _ hlk
          obtain ⟨hkeq, _⟩ := hplan _ hmem (by simpa using hprop.1)
          have hkp : '=' ∉ pkg := by simpa using hkeq
          have hps : stripL pkg = pkg := by
            rw [← hpkg]
            exact parsePkgL_stripped _
          have hcrest : ∀ e, (c :: rest).head? = some e → pyIsSpace e = false := by
            intro e he
            simp only [List.head?_cons, Option.some.injEq] at he
            subst he
            exact hc0
          have hpkgHead : pkg = [] ∨ pkg.head? = some c := by
            rcases parsePkgL_head (c :: rest) hcrest with hnil | hh
            · exact .inl (hpkg ▸ hnil)
            · rw [hpkg] at hh
              exact .inr (by simpa using hh)
          have hhead : ∀ d, (pkg ++ '=' :: '=' :: info.target_version.data).head? =
              some d → pyIsSpace d = false := by
            intro d hd
            cases hp : pkg with
            | nil =>
              rw [hp] at hd
              simp only [List.nil_append, List.head?_cons, Option.some.injEq] at hd
              subst hd
              decide
            | cons p0 ps =>
              rcases hpkgHead with hnil | hh
              · rw [hnil] at hp
                exact absurd hp.symm (List.cons_ne_nil p0 ps)
              · rw [hp] at hd hh
                simp only [List.cons_append, List.head?_cons, Option.some.injEq] at hd hh
                subst hd
                rw [hh]
                exact hc0
          subst hout
          rw [stripL_pin _ _ hhead]
          have hparse := parsePkgL_append_pin pkg
            (dropRightWhileL pyIsSpace info.target_version.data) hkp hps
          rcases hpkgHead with hnil | hh
          · subst hnil
            simp only [List.nil_append] at hparse ⊢
            rw [reqLineStripped, if_neg (by decide), hparse, hlk]
            dsimp only
            rw [if_pos hup]
            rfl
          · cases pkg with
            | nil => simp at hh
            | cons p0 ps =>
              have hp0 : p0 ≠ '#' := by
                simp only [List.head?_cons, Option.some.injEq] at hh
                rw [hh]
                exact hc
              rw [List.cons_append, reqLineStripped, if_neg hp0, ← List.cons_append,
                hparse, hlk]
              dsimp only
              rw [if_pos hup]
        · rw [if_neg hup] at h
          by_cases hkeep : info.action = "keep"
          · rw [if_pos (by simp [hkeep])] at h
            have hout : out = c :: rest := by simpa using h.symm
            subst hout
            rw [hstab, reqLineStripped, if_neg hc, hlk]
            dsimp only
            rw [if_neg hup, if_pos (by simp [hkeep])]
          · rw [if_neg (by simp [hkeep])] at h
            simp at h

/-- Processed lines contain no newline when the raw line contains none and
the plan's upgrade targets contain none. -/
theorem reqLine_no_newline (deps : List (String × DepInfo))
    (hplan : UpgradeEntriesClean deps) (raw out : List Char)
    (hraw : '\n' ∉ raw) (h : reqLine deps raw = some out) : '\n' ∉ out := by
  have hsub : '\n' ∉ stripL raw := fun hm => hraw (mem_of_mem_stripL raw _ hm)
  unfold reqLine at h
  rcases hsl : stripL raw with _ | ⟨c, rest⟩
  · rw [hsl] at h
    have hout : out = [] := by simpa [reqLineStripped] using h.symm
    subst hout
    simp
  · rw [hsl] at h
    rw [hsl] at hsub
    rw [reqLineStripped] at h
    by_cases hc : c = '#'
    · rw [if_pos hc] at h
      have hout : out = c :: rest := by simpa using h.symm
      subst hout
      exact hsub
    · rw [if_neg hc] at h
      rcases hlk : lookupDep deps (String.mk (parsePkgL (c :: rest))) with _ | info
      · rw [hlk] at h
        have hout : out = c :: rest := by simpa using h.symm
        subst hout
        exact hsub
      · rw [hlk] at h
        dsimp only at h
        by_cases hup : (info.action = "upgrade" && !(info.target_version = "")) = true
        · rw [if_pos hup] at h
          have hout : out = parsePkgL (c :: rest) ++ '=' :: '=' ::
              info.target_version.data := by simpa using h.symm
          subst hout
          have hprop := hup
          simp only [Bool.and_eq_true, decide_eq_true_eq, Bool.not_eq_eq_eq_not,
            Bool.not_true, decide_eq_false_iff_not] at hprop
          obtain ⟨_, htv⟩ := hplan _ (lookupDep_mem _ _ _ hlk) (by simpa using hprop.1)
          intro hmem
          rcases List.mem_append.mp hmem with h1 | h1
          · exact hsub (by
              unfold parsePkgL at h1
              exact mem_of_mem_takeBeforeSub _ _ _
                (mem_of_mem_takeBeforeSub _ _ _
                  (mem_of_mem_takeBeforeSub _ _ _ (mem_of_mem_stripL _ _ h1))))
          · simp only [List.mem_cons] at h1
            rcases h1 with h1 | h1 | h1
            · exact absurd h1 (by decide)
            · exact absurd h1 (by decide)
            · exact htv h1
        · rw [if_neg hup] at h
          by_cases hkeep : info.action = "keep"
          · rw [if_pos (by simp [hkeep])] at h
            have hout : out = c :: rest := by simpa using h.symm
            subst hout
            exact hsub
          · rw [if_neg (by simp [hkeep])] at h
            simp at h

/-- A line whose parsed package name is not in the plan is kept, only
whitespace-stripped. -/
theorem reqLine_frame (deps : List (String × DepInfo)) (raw : List Char)
    (h : lookupDep deps (String.mk (parsePkgL (stripL raw))) = none) :
    reqLine deps raw = some (stripL raw) := by
  unfold reqLine
  rcases hsl : stripL raw with _ | ⟨c, rest⟩
  · rfl
  · rw [hsl] at h
    rw [reqLineStripped]
    by_cases hc : c = '#'
    · rw [if_pos hc]
    · rw [if_neg hc, h]

/-- `_update_requirements_txt` is idempotent for clean plans. -/
theorem update_requirements_txt_idem (plan : MPlan)
    (hplan : UpgradeEntriesClean plan.dependencies) (content : String) :
    update_requirements_txt plan (update_requirements_txt plan content) =
      update_requirements_txt plan content := by
  unfold update_requirements_txt
  rcases hls : (splitCharL '\n' content.data).filterMap (reqLine plan.dependencies)
    with _ | ⟨l0, ls0⟩
  · rfl
  · have hmem : ∀ m ∈ l0 :: ls0,
        reqLine plan.dependencies m = some m ∧ '\n' ∉ m := by
      intro m hm
      rw [← hls] at hm
      obtain ⟨raw, hraw, hr⟩ := List.mem_filterMap.mp hm
      have hrawn : '\n' ∉ raw := by
        rw [splitCharL] at hraw
        rcases List.mem_cons.mp hraw with h1 | h1
        · rw [h1]
          exact (splitCharAux_fields_no_sep '\n' content.data).1
        · exact (splitCharAux_fields_no_sep '\n' content.data).2 raw h1
      exact ⟨reqLine_stable _ hplan raw m hr, reqLine_no_newline _ hplan raw m hrawn hr⟩
    have hdata : (String.mk (joinCharL '\n' (l0 :: ls0))).data =
        joinCharL '\n' (l0 :: ls0) := rfl
    rw [hdata, splitCharL_joinCharL '\n' (l0 :: ls0) (List.cons_ne_nil _ _)
      (fun m hm => (hmem m hm).2)]
    rw [filterMap_fixed _ _ (fun m hm => (hmem m hm).1)]

/-- `_update_package_json` is idempotent for plans with distinct dependency
names (Python dict keys are always distinct). -/
theorem update_package_json_idem (plan : MPlan) (p : PackageData)
    (hnd : (plan.dependencies.map Prod.fst).Nodup) :
    update_package_json plan (update_package_json plan p) =
      update_package_json plan p := by
  rw [update_package_json_components, update_package_json_components]
  dsimp only
  rw [groupFold_idem _ _ hnd, groupFold_idem _ _ hnd]

/-- `_update_package_json` never changes the binding of a dependency that
the plan does not mention, in either group, and never touches the other
manifest members. -/
theorem update_package_json_frame (plan : MPlan) (p : PackageData) (k : String)
    (hk : ∀ i, (k, i) ∉ plan.dependencies) :
    alookup k (update_package_json plan p).dependencies = alookup k p.dependencies ∧
    alookup k (update_package_json plan p).devDependencies =
      alookup k p.devDependencies ∧
    (update_package_json plan p).rest = p.rest := by
  rw [update_package_json_components]
  have hne : ∀ e ∈ plan.dependencies, k ≠ e.1 := by
    intro e he heq
    obtain ⟨e1, e2⟩ := e
    simp only at heq
    subst heq
    exact hk e2 he
  exact ⟨alookup_groupFold k _ _ hne, alookup_groupFold k _ _ hne, rfl⟩

/-! ### Lemmas about the workflow nodes and routers -/

/-- `migration_planner_node` never writes the retry fields, on any path. -/
theorem migration_planner_node_preserves (b : Option Broadcaster) (s : WState)
    (i : PlannerInput) (s' : WState) (h : migration_planner_node b s i = .ok s') :
    NodePreserves s s' := by
  unfold migration_planner_node plannerExcept at h
  repeat' split at h
  all_goals try (split at h)
  all_goals try (simp [ite_eq_iff] at h)
  all_goals try (simp only [Except.ok.injEq] at h)
  all_goals try (obtain ⟨hc, h⟩ := h)
  all_goals try (rw [← h])
  all_goals try (simp [NodePreserves])
  all_goals (obtain ⟨-, rfl⟩ := ‹_ ∧ _ = s'›; simp [NodePreserves])

/-- `runtime_validator_node` never writes the retry fields, on any path. -/
theorem runtime_validator_node_preserves (b : Option Broadcaster) (s : WState)
    (i : ValidatorInput) (s' : WState) (h : runtime_validator_node b s i = .ok s') :
    NodePreserves s s' := by
  unfold runtime_validator_node validatorExcept at h
  repeat' split at h
  all_goals try (split at h)
  all_goals try (simp [ite_eq_iff] at h)
  all_goals try (simp only [Except.ok.injEq] at h)
  all_goals try (obtain ⟨hc, h⟩ := h)
  all_goals try (rw [← h])
  all_goals try (simp [NodePreserves])
  all_goals (obtain ⟨-, rfl⟩ := ‹_ ∧ _ = s'›; simp [NodePreserves])

/-- `error_analyzer_node` never writes the retry fields, on any path. -/
theorem error_analyzer_node_preserves (b : Option Broadcaster) (s : WState)
    (i : AnalyzerInput) (s' : WState) (h : error_analyzer_node b s i = .ok s') :
    NodePreserves s s' := by
  unfold error_analyzer_node analyzerExcept at h
  repeat' split at h
  all_goals try (split at h)
  all_goals try (simp [ite_eq_iff] at h)
  all_goals try (simp only [Except.ok.injEq] at h)
  all_goals try (obtain ⟨hc, h⟩ := h)
  all_goals try (rw [← h])
  all_goals try (simp [NodePreserves])
  all_goals (obtain ⟨-, rfl⟩ := ‹_ ∧ _ = s'›; simp [NodePreserves])

/-- `staging_deployer_node` never writes the retry fields, on any path. -/
theorem staging_deployer_node_preserves (b : Option Broadcaster) (s : WState)
    (i : DeployerInput) (s' : WState) (h : staging_deployer_node b s i = .ok s') :
    NodePreserves s s' := by
  unfold staging_deployer_node deployerExcept at h
  repeat' split at h
  all_goals try (split at h)
  all_goals try (simp [ite_eq_iff] at h)
  all_goals try (simp only [Except.ok.injEq] at h)
  all_goals try (obtain ⟨hc, h⟩ := h)
  all_goals try (rw [← h])
  all_goals try (simp [NodePreserves])
  all_goals (obtain ⟨-, rfl⟩ := ‹_ ∧ _ = s'›; simp [NodePreserves])

/-- Routing after validation: the three targets, by the router's code. -/
theorem should_retry_or_deploy_cases (s : WState) :
    (should_retry_or_deploy s = "deploy" ↔ s.validation_success = true) ∧
    (should_retry_or_deploy s = "analyze" ↔
      (s.validation_success = false ∧ s.retry_count < s.max_retries)) ∧
    (should_retry_or_deploy s = "end" ↔
      (s.validation_success = false ∧ s.max_retries ≤ s.retry_count)) := by
  by_cases hv : s.validation_success = true
  · simp [should_retry_or_deploy, hv]
  · have hv2 : s.validation_success = false := by simpa using hv
    by_cases hr : s.retry_count < s.max_retries
    · have hr2 : ¬s.max_retries ≤ s.retry_count := by omega
      simp [should_retry_or_deploy, hv2, hr, hr2]
    · have hr2 : s.max_retries ≤ s.retry_count := by omega
      simp [should_retry_or_deploy, hv2, hr, hr2]

/-- Routing after analysis: retry exactly on `analyzed` with a non-empty
fix list, incrementing the counter by one; otherwise end, unchanged. -/
theorem should_retry_validation_cases (s : WState) :
    ((should_retry_validation s).1 = "validate" ↔
      (s.status = "analyzed" ∧ fixTruthy s.fix_suggestions = true)) ∧
    ((should_retry_validation s).1 = "validate" →
      (should_retry_validation s).2 = { s with retry_count := s.retry_count + 1 }) ∧
    ((should_retry_validation s).1 = "end" →
      (should_retry_validation s).2 = s) ∧
    ((should_retry_validation s).1 = "validate" ∨
      (should_retry_validation s).1 = "end") := by
  by_cases hs : s.status = "analyzed" ∧ fixTruthy s.fix_suggestions = true
  · simp [should_retry_validation, hs, hs.1, hs.2]
  · simp [should_retry_validation, hs]

/-- The inductive invariant of the compiled graph: the retry counter never
exceeds the budget, the number of Validate entries is at most
`retry_count + 1`, nothing has run at the `plan` node, and the `analyze`
node is only ever entered with retry budget remaining. -/
theorem wreach_invariant (c : WNode × WState) (k : Nat) (h : WReach c k) :
    c.2.retry_count ≤ c.2.max_retries ∧ k ≤ c.2.retry_count + 1 ∧
    (c.1 = WNode.plan → k ≤ c.2.retry_count) ∧
    (c.1 = WNode.analyze → c.2.retry_count < c.2.max_retries) := by
  induction h with
  | init pp pt mr gb => simp [create_initial_state]
  | step hr hs ih =>
    obtain ⟨ih1, ih2, ih3, ih4⟩ := ih
    cases hs with
    | planToValidate hp hrt =>
      obtain ⟨hp1, hp2⟩ := hp
      dsimp only at ih1 ih2 ih3 ih4 ⊢
      have hk := ih3 rfl
      simp only [hp1, hp2]
      refine ⟨by omega, by first | omega | (simp; omega), by simp, by simp⟩
    | planToEnd hp hrt =>
      obtain ⟨hp1, hp2⟩ := hp
      dsimp only at ih1 ih2 ih3 ih4 ⊢
      simp only [hp1, hp2]
      refine ⟨by omega, by first | omega | (simp; omega), by simp, by simp⟩
    | validateToDeploy hp hrt =>
      obtain ⟨hp1, hp2⟩ := hp
      dsimp only at ih1 ih2 ih3 ih4 ⊢
      simp only [hp1, hp2]
      refine ⟨by omega, by first | omega | (simp; omega), by simp, by simp⟩
    | validateToAnalyze hp hrt =>
      obtain ⟨hp1, hp2⟩ := hp
      dsimp only at ih1 ih2 ih3 ih4 ⊢
      have hlt := ((should_retry_or_deploy_cases _).2.1.mp hrt).2
      simp only [hp1, hp2] at hlt ⊢
      refine ⟨by omega, by first | omega | (simp; omega), by simp, by first | omega | (simp; omega)⟩
    | validateToEnd hp hrt =>
      obtain ⟨hp1, hp2⟩ := hp
      dsimp only at ih1 ih2 ih3 ih4 ⊢
      simp only [hp1, hp2]
      refine ⟨by omega, by first | omega | (simp; omega), by simp, by simp⟩
    | analyzeToValidate hp hrt =>
      obtain ⟨hp1, hp2⟩ := hp
      dsimp only at ih1 ih2 ih3 ih4 ⊢
      have hlt := ih4 rfl
      have hinc := ((should_retry_validation_cases _).2.1) hrt
      rw [hinc]
      simp only [hp1, hp2] at hlt ⊢
      refine ⟨by first | omega | (simp; omega), by first | omega | (simp; omega), by simp, by simp⟩
    | analyzeToEnd hp hrt =>
      obtain ⟨hp1, hp2⟩ := hp
      dsimp only at ih1 ih2 ih3 ih4 ⊢
      have heq := ((should_retry_validation_cases _).2.2.1) hrt
      rw [heq]
      simp only [hp1, hp2]
      refine ⟨by omega, by first | omega | (simp; omega), by simp, by simp⟩
    | deployToEnd hp =>
      obtain ⟨hp1, hp2⟩ := hp
      dsimp only at ih1 ih2 ih3 ih4 ⊢
      simp only [hp1, hp2]
      refine ⟨by omega, by first | omega | (simp; omega), by simp, by simp⟩

/-- `statusRespFinish` never changes the store and only adds the
`reports_content` links to the response. -/
theorem statusRespFinish_spec (mid : String) (m : MigRecord) (resp : StatusResponse)
    (store : MigStore) :
    (statusRespFinish mid m resp store).2 = store ∧
    (statusRespFinish mid m resp store).1.migration_id = resp.migration_id ∧
    (statusRespFinish mid m resp store).1.status = resp.status ∧
    (statusRespFinish mid m resp store).1.project_path = resp.project_path ∧
    (statusRespFinish mid m resp store).1.project_type = resp.project_type ∧
    (statusRespFinish mid m resp store).1.errors = resp.errors ∧
    (statusRespFinish mid m resp store).1.result = resp.result ∧
    (statusRespFinish mid m resp store).1.reports = resp.reports := by
  unfold statusRespFinish
  by_cases h : m.report_files.isSome = true <;> simp [h]

/-- C9 (amended): the `get_migration_status` handler answers 404 on unknown
ids and a faithful snapshot of the stored record otherwise, and it is
read-only except in one cache branch — a completed run (`deployed` or
`error` status) with no cached report links and matching report files on
disk — where it writes exactly the record's `reports` and `report_files`
fields back into the store. -/
theorem claim_C9 (store : MigStore) (files : List String)
    (mid : String) :
    (lookupRecord store mid = none →
      get_migration_status store files mid =
        .error (404, "Migration not found: " ++ mid)) ∧
    (∀ m, lookupRecord store mid = some m →
      ∃ out, get_migration_status store files mid = .ok out ∧
        out.1.migration_id = mid ∧ out.1.status = m.status ∧
        out.1.project_path = m.project_path ∧ out.1.project_type = m.project_type ∧
        out.1.errors = m.errors ∧ out.1.result = m.result ∧
        (¬(m.reports = none ∧ (m.status = "deployed" ∨ m.status = "error") ∧
            files ≠ []) → out.2 = store) ∧
        ((m.reports = none ∧ (m.status = "deployed" ∨ m.status = "error") ∧
            files ≠ []) →
          ∀ f fs, files = f :: fs →
            out.2 = storeSet store mid
              { m with
                reports := some (reportLinks mid)
                report_files := some
                  { html := f
                    markdown := pyReplace f ".html" ".md"
                    json := pyReplace f ".html" ".json" } })) := by
  constructor
  · intro h
    unfold get_migration_status
    rw [h]
  · intro m hm
    unfold get_migration_status
    rw [hm]
    dsimp only
    rcases hrep : m.reports with _ | r
    · dsimp only
      by_cases hst : (m.status = "deployed" || m.status = "error") = true
      · rw [if_pos hst]
        rcases hf : files with _ | ⟨f, fs⟩
        · refine ⟨_, rfl, ?_⟩
          unfold statusRespFinish
          split <;> simp [baseResponse]
        · refine ⟨_, rfl, ?_⟩
          unfold statusRespFinish
          have hst2 : m.status = "deployed" ∨ m.status = "error" := by simpa using hst
          split <;> simp [baseResponse, hrep] <;>
            (intro h1 h2; rcases hst2 with h3 | h3 <;> simp_all)
      · rw [if_neg hst]
        refine ⟨_, rfl, ?_⟩
        simp only [Bool.or_eq_true, decide_eq_true_eq, not_or] at hst
        unfold statusRespFinish
        split <;> simp [baseResponse, hst.1, hst.2]
    · dsimp only
      refine ⟨_, rfl, ?_⟩
      unfold statusRespFinish
      split <;> simp [baseResponse, hrep]

/-! ## The claims -/

/-- C1: for every workflow execution started from `create_initial_state`
(`retry_count = 0`), `retry_count ≤ max_retries` holds in every reachable
state; the Validate stage executes at most `max_retries + 1` times in any
run; the `analyze` node is only ever entered with retry budget remaining;
and once `retry_count ≥ max_retries` a failed validation routes to `"end"`,
never to another retry. -/
theorem claim_C1 (c : WNode × WState) (k : Nat) (h : WReach c k) :
    c.2.retry_count ≤ c.2.max_retries ∧
    k ≤ c.2.max_retries + 1 ∧
    (c.1 = WNode.analyze → c.2.retry_count < c.2.max_retries) ∧
    (∀ t : WState, t.validation_success = false →
      t.max_retries ≤ t.retry_count → should_retry_or_deploy t = "end") := by
  obtain ⟨h1, h2, h3, h4⟩ := wreach_invariant c k h
  exact ⟨h1, by omega, h4,
    fun t hv hm => (should_retry_or_deploy_cases t).2.2.mpr ⟨hv, hm⟩⟩

/-- C1 witness: the invariant holds at the initial configuration of a
concrete run with a retry budget of 3. -/
theorem claim_C1_witness :
    (WNode.plan, create_initial_state "/p" "nodejs" 3 "main").2.retry_count ≤
      (WNode.plan, create_initial_state "/p" "nodejs" 3 "main").2.max_retries :=
  (claim_C1 (WNode.plan, create_initial_state "/p" "nodejs" 3 "main") 0
    (WReach.init "/p" "nodejs" 3 "main")).1

/-- C2: for every result of `validate_project`, the overall status is
`"success"` iff install, application start and health check succeeded and
either no tests were declared or the declared tests passed; in particular a
happy-path run with no declared tests succeeds, while the same run with
declared failing tests gets a failure verdict. -/
theorem claim_C2 (env : DockerEnv) (w : SandboxWorld) :
    (((validate_project env w).1.status = "success") ↔
      ((validate_project env w).1.install_success = true ∧
       (validate_project env w).1.runtime_success = true ∧
       (validate_project env w).1.health_check_success = true ∧
       ((validate_project env w).1.tests_run = false ∨
        (validate_project env w).1.tests_passed = true))) ∧
    (validate_project envHappy emptyWorld).1.status = "success" ∧
    (validate_project envTestsFail emptyWorld).1.status = "error" :=
  ⟨vp_success_iff env w, by decide, by decide⟩

/-- C3: after the Validate stage (no progress sink attached, so the verdict
is the agent's), the orchestrator routes to `"deploy"` iff the sandbox
verdict is proceed (`valSuccessI`: agent status, nested Docker status and
analysis recommendation all positive), to `"analyze"` iff the verdict is
negative and `retry_count < max_retries`, and to `"end"` iff the verdict is
negative and `retry_count ≥ max_retries`. -/
theorem claim_C3 (s : WState) (i : ValidatorInput) (s' : WState)
    (h : runtime_validator_node none s i = .ok s') :
    s'.validation_success = valSuccessI i ∧
    (should_retry_or_deploy s' = "deploy" ↔ valSuccessI i = true) ∧
    (should_retry_or_deploy s' = "analyze" ↔
      (valSuccessI i = false ∧ s.retry_count < s.max_retries)) ∧
    (should_retry_or_deploy s' = "end" ↔
      (valSuccessI i = false ∧ s.max_retries ≤ s.retry_count)) := by
  obtain ⟨hrc, hmr⟩ := runtime_validator_node_preserves none s i s' h
  have hvs : s'.validation_success = valSuccessI i := by
    unfold runtime_validator_node validatorExcept emitRaw at h
    cases i with
    | raises m =>
      dsimp only at h
      simp only [Except.ok.injEq] at h
      rw [← h]
      rfl
    | completes r =>
      dsimp only at h
      split at h <;>
        (simp only [Except.ok.injEq] at h; rw [← h]; rfl)
  have hc := should_retry_or_deploy_cases s'
  rw [hvs, hrc, hmr] at hc
  exact ⟨hvs, hc.1, hc.2.1, hc.2.2⟩

/-- C3 witness: a validator run that raises on a fresh state with budget 3
gets a negative verdict and routes to `"analyze"`. -/
theorem claim_C3_witness :
    runtime_validator_node none (create_initial_state "/p" "nodejs" 3 "main")
        (ValidatorInput.raises "docker daemon unreachable") =
      Except.ok { create_initial_state "/p" "nodejs" 3 "main" with
        status := "error"
        validation_success := false
        errors := ["Runtime validator error: docker daemon unreachable"] } ∧
    should_retry_or_deploy { create_initial_state "/p" "nodejs" 3 "main" with
        status := "error"
        validation_success := false
        errors := ["Runtime validator error: docker daemon unreachable"] } =
      "analyze" := by
  refine ⟨rfl, ?_⟩
  exact (claim_C3 (create_initial_state "/p" "nodejs" 3 "main")
    (ValidatorInput.raises "docker daemon unreachable") _ rfl).2.2.1.mpr
    ⟨rfl, by decide⟩

/-- C4: after the Diagnose stage (no progress sink attached), the
orchestrator routes back to `"validate"` iff the analyzer succeeded with at
least one fix suggestion (`analyzerFixes`); on exactly that edge
`retry_count` is incremented by exactly one before Validate re-enters; on
the `"end"` edge the state is passed through unchanged; and the node itself
never changes `retry_count`. -/
theorem claim_C4 (s : WState) (i : AnalyzerInput) (s' : WState)
    (h : error_analyzer_node none s i = .ok s') :
    ((should_retry_validation s').1 = "validate" ↔ analyzerFixes i ≠ []) ∧
    ((should_retry_validation s').1 = "validate" →
      (should_retry_validation s').2.retry_count = s.retry_count + 1) ∧
    ((should_retry_validation s').1 = "end" →
      (should_retry_validation s').2 = s') ∧
    s'.retry_count = s.retry_count := by
  have hinc : ∀ t : WState, (should_retry_validation t).1 = "validate" →
      (should_retry_validation t).2.retry_count = t.retry_count + 1 := by
    intro t hv
    rw [(should_retry_validation_cases t).2.1 hv]
  unfold error_analyzer_node analyzerExcept emitRaw at h
  cases i with
  | raises m =>
    dsimp only at h
    simp only [Except.ok.injEq] at h
    subst h
    refine ⟨?_, fun hv => hinc _ hv,
      fun hv => (should_retry_validation_cases _).2.2.1 hv, rfl⟩
    simp [should_retry_validation, analyzerFixes]
  | completes r =>
    cases r with
    | aSuccess a =>
      dsimp only at h
      simp only [Except.ok.injEq] at h
      subst h
      refine ⟨?_, fun hv => hinc _ hv,
        fun hv => (should_retry_validation_cases _).2.2.1 hv, rfl⟩
      by_cases hfe : a.fix_suggestions = [] <;>
        simp [should_retry_validation, fixTruthy, analyzerFixes, hfe]
    | aError m =>
      dsimp only at h
      simp only [Except.ok.injEq] at h
      subst h
      refine ⟨?_, fun hv => hinc _ hv,
        fun hv => (should_retry_validation_cases _).2.2.1 hv, rfl⟩
      simp [should_retry_validation, analyzerFixes]

/-- C4 witness: a successful analysis with one fix suggestion on a fresh
state routes back to `"validate"` and bumps the retry counter from 0 to 1. -/
theorem claim_C4_witness :
    (should_retry_validation { create_initial_state "/p" "nodejs" 3 "main" with
        error_analysis := some { fix_suggestions := ["pin express to 4.18.2"] }
        fix_suggestions := some ["pin express to 4.18.2"]
        status := "analyzed" }).1 = "validate" ∧
    (should_retry_validation { create_initial_state "/p" "nodejs" 3 "main" with
        error_analysis := some { fix_suggestions := ["pin express to 4.18.2"] }
        fix_suggestions := some ["pin express to 4.18.2"]
        status := "analyzed" }).2.retry_count =
      (create_initial_state "/p" "nodejs" 3 "main").retry_count + 1 := by
  have h := claim_C4 (create_initial_state "/p" "nodejs" 3 "main")
    (AnalyzerInput.completes (.aSuccess { fix_suggestions := ["pin express to 4.18.2"] }))
    _ rfl
  exact ⟨h.1.mpr (by decide), h.2.1 (h.1.mpr (by decide))⟩

/-- C5 counterexample: change-set application to `requirements.txt` is not
idempotent for every plan — a target version containing a newline makes the
rewritten pin span two lines, and the second application re-rewrites the
first of them and keeps the spill-over — and a line absent from the plan is
not left unchanged, because the rewrite strips its surrounding whitespace. -/
theorem claim_C5_counterexample :
    update_requirements_txt ⟨[("flask", ⟨"upgrade", "2.0\nx"⟩)]⟩
        (update_requirements_txt ⟨[("flask", ⟨"upgrade", "2.0\nx"⟩)]⟩ "flask==1.0") ≠
      update_requirements_txt ⟨[("flask", ⟨"upgrade", "2.0\nx"⟩)]⟩ "flask==1.0" ∧
    update_requirements_txt ⟨[]⟩ " requests==1.0" ≠ " requests==1.0" := by
  constructor <;> decide

/-- C5 (amended): change-set application to `package.json` is idempotent for
plans with distinct dependency names and never touches entries (or other
manifest members) the plan does not mention; application to
`requirements.txt` is idempotent for plans whose upgrade entries are clean
(no `=` in the name, no newline in the target version), and a line whose
package is absent from the plan is kept, altered only by whitespace
stripping. -/
theorem claim_C5 :
    (∀ (plan : MPlan) (p : PackageData),
      (plan.dependencies.map Prod.fst).Nodup →
      update_package_json plan (update_package_json plan p) =
        update_package_json plan p) ∧
    (∀ (plan : MPlan) (p : PackageData) (k : String),
      (∀ i, (k, i) ∉ plan.dependencies) →
      alookup k (update_package_json plan p).dependencies =
        alookup k p.dependencies ∧
      alookup k (update_package_json plan p).devDependencies =
        alookup k p.devDependencies ∧
      (update_package_json plan p).rest = p.rest) ∧
    (∀ (plan : MPlan), UpgradeEntriesClean plan.dependencies →
      ∀ content, update_requirements_txt plan (update_requirements_txt plan content) =
        update_requirements_txt plan content) ∧
    (∀ (plan : MPlan) (raw : List Char),
      lookupDep plan.dependencies (String.mk (parsePkgL (stripL raw))) = none →
      reqLine plan.dependencies raw = some (stripL raw)) :=
  ⟨fun plan p hnd => update_package_json_idem plan p hnd,
   fun plan p k hk => update_package_json_frame plan p k hk,
   fun plan hcl content => update_requirements_txt_idem plan hcl content,
   fun plan raw hl => reqLine_frame plan.dependencies raw hl⟩

/-- C5 witness: the amended law on a concrete clean plan and concrete
manifests. -/
theorem claim_C5_witness :
    update_package_json planFlask (update_package_json planFlask pkgSample) =
      update_package_json planFlask pkgSample ∧
    alookup "lodash" (update_package_json planFlask pkgSample).dependencies =
      alookup "lodash" pkgSample.dependencies ∧
    update_requirements_txt planFlask
        (update_requirements_txt planFlask "flask==1.0\nrequests>=2.0") =
      update_requirements_txt planFlask "flask==1.0\nrequests>=2.0" ∧
    reqLine planFlask.dependencies "requests>=2.0".data =
      some (stripL "requests>=2.0".data) :=
  ⟨claim_C5.1 planFlask pkgSample (by decide),
   (claim_C5.2.1 planFlask pkgSample "lodash"
     (by
       intro i h
       have h3 : "lodash" = "flask" :=
         congrArg Prod.fst (List.mem_singleton.mp h)
       exact absurd h3 (by decide))).1,
   claim_C5.2.2.1 planFlask (by unfold UpgradeEntriesClean; decide)
     "flask==1.0\nrequests>=2.0",
   claim_C5.2.2.2 planFlask ("requests>=2.0".data) (by decide)⟩

/-- C6: a non-zero install exit ends the run with an error verdict carrying
the install output as evidence, the start, health-check and test phases are
never attempted (their logs stay unset and their flags false), and the
entire outcome is independent of how those later phases would have
behaved. -/
theorem claim_C6 (env env' : DockerEnv) (w : SandboxWorld)
    (hpt : env.projectType = "nodejs" ∨ env.projectType = "python")
    (hcr : env.createRaises = none) (hsr : env.startRaises = none)
    (hcp : env.copyRaises = none)
    (hap : env.migrationPlan.isSome → env.applyRaises = none)
    (hie : env.installExit ≠ 0)
    (hag : EnvAgreesThroughInstall env env') :
    (validate_project env w).1.status = "error" ∧
      ("Dependency installation failed: " ++ env.installOutput) ∈
        (validate_project env w).1.errors ∧
      (validate_project env w).1.logs.startup = none ∧
      (validate_project env w).1.logs.health_check = none ∧
      (validate_project env w).1.logs.tests = none ∧
      (validate_project env w).1.runtime_success = false ∧
      (validate_project env w).1.health_check_success = false ∧
      (validate_project env w).1.tests_run = false ∧
      validate_project env w = validate_project env' w :=
  vp_install_fail env env' w hpt hcr hsr hcp hap hie hag

/-- C6 witness: a concrete nodejs run whose install exits 1 gets the error
verdict with the install log attached, and altering the later phases
(crashing app, failing health check) does not change the outcome. -/
theorem claim_C6_witness :
    (validate_project envInstallFail emptyWorld).1.status = "error" ∧
    ("Dependency installation failed: " ++ envInstallFail.installOutput) ∈
      (validate_project envInstallFail emptyWorld).1.errors ∧
    validate_project envInstallFail emptyWorld =
      validate_project envInstallFailAlt emptyWorld := by
  have h := claim_C6 envInstallFail envInstallFailAlt emptyWorld
    (Or.inl rfl) rfl rfl rfl (fun _ => rfl) (by decide)
    ⟨rfl, rfl, rfl, rfl, rfl, rfl, rfl, rfl, rfl, rfl, rfl⟩
  exact ⟨h.1, h.2.1, h.2.2.2.2.2.2.2.2⟩

/-- C7 counterexample: provisioning is not leak-free — when the container is
created but its `start()` raises, `_create_container` raises before
appending to `self.containers`, so the `finally` block (which only cleans a
container returned to `validate_project`) leaves the created container in
the daemon, untracked, even with cleanup configured. -/
theorem claim_C7_counterexample :
    envStartRaises.cleanupContainers = true ∧
    containerStatus (validate_project envStartRaises emptyWorld).2.docker
      envStartRaises.containerName = some CStatus.created ∧
    envStartRaises.containerName ∉
      (validate_project envStartRaises emptyWorld).2.tracked := by
  refine ⟨rfl, ?_, ?_⟩ <;> decide

/-- C7 (amended): session teardown is idempotent and never raises (every
failing daemon call inside `_cleanup_container` is swallowed), and once
provisioning has succeeded the session always ends torn down (cleanup
configured) or retained running (cleanup disabled), on every later-phase
outcome; the no-leak guarantee fails only inside provisioning itself. -/
theorem claim_C7 :
    (∀ (w : SandboxWorld) (n : String),
      cleanup_container (cleanup_container w n) n = cleanup_container w n) ∧
    (∀ (env : DockerEnv) (w : SandboxWorld),
      (env.projectType = "nodejs" ∨ env.projectType = "python") →
      env.createRaises = none → env.startRaises = none →
      (env.cleanupContainers = true →
        containerStatus (validate_project env w).2.docker env.containerName =
          none) ∧
      (env.cleanupContainers = false →
        containerStatus (validate_project env w).2.docker env.containerName =
          some CStatus.running)) :=
  ⟨fun w n => cleanup_container_idem w n,
   fun env w hpt hcr hsr => vp_session_teardown env w hpt hcr hsr⟩

/-- C7 witness: teardown of a concrete container is idempotent, and a
concrete happy-path run with cleanup configured ends with its container
gone. -/
theorem claim_C7_witness :
    cleanup_container (cleanup_container emptyWorld "app") "app" =
      cleanup_container emptyWorld "app" ∧
    containerStatus (validate_project envHappy emptyWorld).2.docker
      envHappy.containerName = none :=
  ⟨claim_C7.1 emptyWorld "app",
   (claim_C7.2 envHappy emptyWorld (Or.inl rfl) rfl rfl).1 rfl⟩

/-- C8 counterexample: a sink failure can fail a stage transition — the
`workflow_status` emission at the top of `migration_planner_node` happens
outside the `try` block, so a raising broadcaster propagates out of the node
instead of being logged and swallowed, while the same input with no sink
attached completes the stage normally. -/
theorem claim_C8_counterexample :
    migration_planner_node (some failingSink)
        (create_initial_state "/p" "nodejs" 3 "main")
        (.completes (.rSuccess { dependencies := [] })) =
      Except.error "connection closed" ∧
    migration_planner_node none (create_initial_state "/p" "nodejs" 3 "main")
        (.completes (.rSuccess { dependencies := [] })) =
      Except.ok { create_initial_state "/p" "nodejs" 3 "main" with
        migration_plan := some { dependencies := [] }
        status := "plan_created" } :=
  ⟨rfl, rfl⟩

/-- C8 (amended): only `BaseAgent.send_update` has fire-and-forget
semantics — it returns normally (logging a warning) for every broadcaster
behaviour — whereas the node-level `workflow_status` emission before the
`try` block of `migration_planner_node` propagates a sink failure out of
the stage. -/
theorem claim_C8 :
    (∀ (agent : String) (b : Option Broadcaster) (message mtype : String)
      (ed : List (String × String)),
      ∃ warnings, send_update agent b message mtype ed = Except.ok warnings) ∧
    (∀ (f : Broadcaster) (s : WState) (i : PlannerInput) (e : String),
      f (BMsg.workflowStatus "executing_migration_planner"
          "Starting migration planning...") = Except.error e →
      migration_planner_node (some f) s i = Except.error e) := by
  constructor
  · intro agent b message mtype ed
    unfold send_update
    cases b with
    | none => exact ⟨[], rfl⟩
    | some f =>
      cases hf : f (.agentUpdate mtype agent message ed) with
      | ok u => exact ⟨[], by simp [hf]⟩
      | error e => exact ⟨["Failed to broadcast message: " ++ e], by simp [hf]⟩
  · intro f s i e hf
    unfold migration_planner_node emitRaw
    dsimp only
    rw [hf]

/-- C8 witness: with the concrete always-raising sink, the planner stage
fails with the sink's exception. -/
theorem claim_C8_witness :
    migration_planner_node (some failingSink)
        (create_initial_state "/p" "nodejs" 3 "main")
        (.raises "agent blew up") =
      Except.error "connection closed" :=
  claim_C8.2 failingSink (create_initial_state "/p" "nodejs" 3 "main")
    (.raises "agent blew up") "connection closed" rfl

/-- C9 counterexample: the handler is not read-only — reading the status of
a deployed record with no cached report links while a matching report file
exists on disk writes the report links and file paths back into
`migrations_db`. -/
theorem claim_C9_counterexample :
    Option.map Prod.snd
        (Except.toOption
          (get_migration_status [("m1", recDeployed)] ["r.html"] "m1")) ≠
      some [("m1", recDeployed)] ∧
    Option.map Prod.snd
        (Except.toOption
          (get_migration_status [("m1", recDeployed)] ["r.html"] "m1")) =
      some [("m1", { recDeployed with
        reports := some (reportLinks "m1")
        report_files := some { html := "r.html"
                               markdown := "r.md"
                               json := "r.json" } })] := by
  constructor <;> decide

/-- C9 witness: an unknown id gets the 404 error. -/
theorem claim_C9_witness :
    get_migration_status [] [] "m77" =
      Except.error (404, "Migration not found: m77") :=
  (claim_C9 [] [] "m77").1 rfl

/-- C10: `validate_project` is total at its boundary — it always returns the
result dict (a `DockerResult`, which carries all twelve keys the handler
initialises up front) rather than propagating an exception, its status is
always `"success"` or `"error"`, and the message of the first internal
exception, when one is raised, is appended to the `errors` list. -/
theorem claim_C10 (env : DockerEnv) (w : SandboxWorld) :
    ((validate_project env w).1.status = "success" ∨
      (validate_project env w).1.status = "error") ∧
    (∀ m, firstExn env = some m → m ∈ (validate_project env w).1.errors) :=
  ⟨vp_status_cases env w, fun m h => vp_exn_recorded env w m h⟩

/-- C10 witness: an unsupported project type raises a `ValueError` whose
message lands in the returned errors list. -/
theorem claim_C10_witness :
    firstExn envBadType = some "Unsupported project type: ruby" ∧
    "Unsupported project type: ruby" ∈
      (validate_project envBadType emptyWorld).1.errors :=
  ⟨by decide,
   (claim_C10 envBadType emptyWorld).2 "Unsupported project type: ruby"
     (by decide)⟩
